import Mathlib

/-!
# Verification of the fastapi-yfinance cache gateway (src/main.py)

Shallow embedding of the cache-gateway service: the pure helpers
(validate_date_format, generate_random_string, the proxy-selection block),
the payload codecs used around the Redis store (json.dumps / json.loads with
integers for the numeric leaves, and urlsafe base64 with stripped padding),
and the request handlers get_stock_info, history_stock_data,
periods_stock_data and get_all_us_stock_tickers.  External collaborators
(yfinance, the RapidAPI profile endpoint, Redis, the Nasdaq screener) are
oracles carried by an explicit world record; each handler returns the
response envelope (or an unhandled exception) together with the ordered
trace of cache reads, cache writes and outbound fetches it performed.
-/

set_option maxHeartbeats 1000000

/-! ## Character helpers -/


/-- The double-quote character (written via its code point). -/
def cQuote : Char := Char.ofNat 34

/-- The backslash character (written via its code point). -/
def cBackslash : Char := Char.ofNat 92

/-- Decimal digit character for a value below ten. -/
def digitChar : Nat → Char
  | 0 => '0' | 1 => '1' | 2 => '2' | 3 => '3' | 4 => '4'
  | 5 => '5' | 6 => '6' | 7 => '7' | 8 => '8' | _ => '9'

/-- Numeric value of a decimal digit character. -/
def digitVal (c : Char) : Nat := c.toNat - 48

/-- Python str.upper restricted to its ASCII behaviour (ticker symbols and
cache keys in this service are ASCII). -/
def upperChar (c : Char) : Char :=
  if 97 ≤ c.toNat ∧ c.toNat ≤ 122 then Char.ofNat (c.toNat - 32) else c

/-- Embedding of Python `s.upper()` (ASCII fragment). -/
def pyUpper (s : String) : String := String.mk (s.data.map upperChar)

/-- Natural-number decimal digits, most significant first, via explicit fuel
so that evaluation reduces definitionally. -/
def natCharsAux : Nat → Nat → List Char
  | 0, _ => []
  | fuel + 1, n => if n = 0 then [] else natCharsAux fuel (n / 10) ++ [digitChar (n % 10)]

/-- Embedding of Python decimal rendering of a natural number. -/
def natChars (n : Nat) : List Char := if n = 0 then ['0'] else natCharsAux n n

/-- Embedding of Python decimal rendering of an integer (str(int)). -/
def intChars : Int → List Char
  | .ofNat n => natChars n
  | .negSucc m => '-' :: natChars (m + 1)

/-- Value of a most-significant-first decimal digit list. -/
def digitsVal (l : List Char) : Nat := l.foldl (fun a c => a * 10 + digitVal c) 0

/-! ## JSON values and the json.dumps embedding

Payloads stored in Redis by the service are produced by json.dumps with its
default options (ensure_ascii, separators ", " and ": ").  Numeric leaves
are modelled as integers.  Dict insertion order is preserved, as in Python.
-/

mutual
inductive Json where
  | null : Json
  | bool : Bool → Json
  | num : Int → Json
  | str : String → Json
  | arr : JArr → Json
  | obj : JMems → Json
inductive JArr where
  | nil : JArr
  | cons : Json → JArr → JArr
inductive JMems where
  | nil : JMems
  | cons : String → Json → JMems → JMems
end

deriving instance DecidableEq for Json

/-- Four lowercase hexadecimal digits, as emitted by the json.dumps
ensure_ascii escaping. -/
def hexDigitChar : Nat → Char
  | 0 => '0' | 1 => '1' | 2 => '2' | 3 => '3' | 4 => '4' | 5 => '5'
  | 6 => '6' | 7 => '7' | 8 => '8' | 9 => '9' | 10 => 'a' | 11 => 'b'
  | 12 => 'c' | 13 => 'd' | 14 => 'e' | _ => 'f'

def hex4 (n : Nat) : List Char :=
  [hexDigitChar (n / 4096 % 16), hexDigitChar (n / 256 % 16),
   hexDigitChar (n / 16 % 16), hexDigitChar (n % 16)]

/-- Escaping of one character inside a JSON string literal, as json.dumps
with ensure_ascii performs it (shorthand escapes, then asciified code
points, with surrogate pairs beyond the basic plane). -/
def escapeChar (c : Char) : List Char :=
  if c = cQuote then [cBackslash, cQuote]
  else if c = cBackslash then [cBackslash, cBackslash]
  else if c.toNat = 8 then [cBackslash, 'b']
  else if c.toNat = 9 then [cBackslash, 't']
  else if c.toNat = 10 then [cBackslash, 'n']
  else if c.toNat = 12 then [cBackslash, 'f']
  else if c.toNat = 13 then [cBackslash, 'r']
  else if c.toNat < 32 then cBackslash :: 'u' :: hex4 c.toNat
  else if c.toNat ≤ 126 then [c]
  else if c.toNat < 65536 then cBackslash :: 'u' :: hex4 c.toNat
  else cBackslash :: 'u' :: hex4 (55296 + (c.toNat - 65536) / 1024) ++
       cBackslash :: 'u' :: hex4 (56320 + (c.toNat - 65536) % 1024)

def escapeList : List Char → List Char
  | [] => []
  | c :: cs => escapeChar c ++ escapeList cs

mutual
/-- Characters of json.dumps output for a value. -/
def printJson : Json → List Char
  | .null => 'n' :: 'u' :: 'l' :: 'l' :: []
  | .bool true => 't' :: 'r' :: 'u' :: 'e' :: []
  | .bool false => 'f' :: 'a' :: 'l' :: 's' :: 'e' :: []
  | .num n => intChars n
  | .str s => cQuote :: escapeList s.data ++ [cQuote]
  | .arr .nil => ['[', ']']
  | .arr (.cons h t) => '[' :: (printJson h ++ printArrTail t ++ [']'])
  | .obj .nil => ['{', '}']
  | .obj (.cons k v t) =>
      '{' :: (cQuote :: escapeList k.data ++ cQuote :: ':' :: ' ' :: printJson v
              ++ printObjTail t ++ ['}'])
/-- Remaining array elements, each preceded by the ", " separator. -/
def printArrTail : JArr → List Char
  | .nil => []
  | .cons h t => ',' :: ' ' :: (printJson h ++ printArrTail t)
/-- Remaining object members, each preceded by the ", " separator. -/
def printObjTail : JMems → List Char
  | .nil => []
  | .cons k v t =>
      ',' :: ' ' :: (cQuote :: escapeList k.data ++ cQuote :: ':' :: ' ' :: printJson v
                     ++ printObjTail t)
end

/-- Embedding of Python json.dumps (default options). -/
def dumps (j : Json) : String := String.mk (printJson j)

mutual
/-- Fuel measure matching the recursion pattern of the parser. -/
def jsizeV : Json → Nat
  | .arr xs => 2 + jsizeA xs
  | .obj ms => 2 + jsizeM ms
  | _ => 1
def jsizeA : JArr → Nat
  | .nil => 0
  | .cons h t => 2 + jsizeV h + jsizeA t
def jsizeM : JMems → Nat
  | .nil => 0
  | .cons _ v t => 3 + jsizeV v + jsizeM t
end

/-! ## The json.loads embedding

A strict recursive-descent parser for the JSON grammar accepted by Python
json.loads, with two deliberate gaps that json.dumps output never exercises:
fraction/exponent number forms (floats) and lone escaped surrogates are
rejected rather than parsed. -/

def isWsChar (c : Char) : Bool := c = ' ' || c = '\t' || c = '\n' || c = '\r'

def skipWs : List Char → List Char
  | [] => []
  | c :: cs => if isWsChar c then skipWs cs else c :: cs

def parseHexDigit (c : Char) : Option Nat :=
  if 48 ≤ c.toNat ∧ c.toNat ≤ 57 then some (c.toNat - 48)
  else if 97 ≤ c.toNat ∧ c.toNat ≤ 102 then some (c.toNat - 87)
  else if 65 ≤ c.toNat ∧ c.toNat ≤ 70 then some (c.toNat - 55)
  else none

/-- Prefix one character onto the string part of a parse result. -/
def consStr (c : Char) : Option (List Char × List Char) → Option (List Char × List Char)
  | some (l, r) => some (c :: l, r)
  | none => none

/-- Four hexadecimal digits read off the input. -/
def parseHex4Q : List Char → Option (Nat × List Char)
  | h1 :: h2 :: h3 :: h4 :: r =>
    match parseHexDigit h1, parseHexDigit h2, parseHexDigit h3, parseHexDigit h4 with
    | some x1, some x2, some x3, some x4 => some (((x1 * 16 + x2) * 16 + x3) * 16 + x4, r)
    | _, _, _, _ => none
  | _ => none

/-- Combination of a high surrogate value with a parsed low surrogate. -/
def lowCombine (m m2 : Nat) (r4 : List Char) : Option (Char × List Char) :=
  if 56320 ≤ m2 ∧ m2 ≤ 57343 then
    some (Char.ofNat (65536 + (m - 55296) * 1024 + (m2 - 56320)), r4)
  else none

/-- The escaped low surrogate required after a high surrogate. -/
def parseLowSurrogate (m : Nat) (r3 : List Char) : Option (Char × List Char) :=
  (parseHex4Q r3).bind fun p => lowCombine m p.1 p.2

/-- After a high surrogate, the rest of the input must continue with an
escaped low surrogate. -/
def pairTail (m : Nat) : List Char → Option (Char × List Char)
  | b2 :: u2 :: r3 => if b2 = cBackslash ∧ u2 = 'u' then parseLowSurrogate m r3 else none
  | _ => none

/-- Continuation after the first four hex digits of a unicode escape. -/
def parseUEscapeCont (m : Nat) (r2 : List Char) : Option (Char × List Char) :=
  if 55296 ≤ m ∧ m ≤ 56319 then pairTail m r2
  else if 56320 ≤ m ∧ m ≤ 57343 then none
  else some (Char.ofNat m, r2)

/-- A unicode escape after its backslash-u introducer; a high surrogate must
be followed by an escaped low surrogate and the pair is recombined.  (Python
json.loads would keep a lone surrogate; Lean characters cannot carry one, so
the model rejects it — json.dumps output never contains lone surrogates.) -/
def parseUEscape (r : List Char) : Option (Char × List Char) :=
  (parseHex4Q r).bind fun p => parseUEscapeCont p.1 p.2

/-- One escape sequence after its backslash. -/
def parseEscape : List Char → Option (Char × List Char)
  | [] => none
  | e :: r =>
    if e = cQuote then some (cQuote, r)
    else if e = cBackslash then some (cBackslash, r)
    else if e = '/' then some ('/', r)
    else if e = 'b' then some (Char.ofNat 8, r)
    else if e = 't' then some (Char.ofNat 9, r)
    else if e = 'n' then some (Char.ofNat 10, r)
    else if e = 'f' then some (Char.ofNat 12, r)
    else if e = 'r' then some (Char.ofNat 13, r)
    else if e = 'u' then parseUEscape r
    else none

/-- Body of a JSON string literal after the opening quote, including the
closing quote.  Control characters are rejected (strict mode).  The fuel is
instantiated with the input length at every call site, so it never runs out
on the characters actually consumed. -/
def parseStrBody : Nat → List Char → Option (List Char × List Char)
  | 0, _ => none
  | _ + 1, [] => none
  | fuel + 1, c :: rest =>
    if c = cQuote then some ([], rest)
    else if c = cBackslash then
      (parseEscape rest).bind fun p => consStr p.1 (parseStrBody fuel p.2)
    else if c.toNat < 32 then none
    else consStr c (parseStrBody fuel rest)

/-- Unsigned integer part of a JSON number: a lone zero, or a nonzero
leading digit followed by further digits (the int part of the Python
NUMBER_RE regular expression). -/
def parseNatPart : List Char → Option (Nat × List Char)
  | [] => none
  | c :: rest =>
    if c = '0' then some (0, rest)
    else if c.isDigit then
      some (digitsVal ((c :: rest).takeWhile Char.isDigit),
            (c :: rest).dropWhile Char.isDigit)
    else none

/-- After the integer digits, a fraction dot or exponent letter would make
the literal a float, which the integer model rejects. -/
def numTailOk : List Char → Bool
  | [] => true
  | c :: _ => !(c = '.' || c = 'e' || c = 'E')

/-- Final check after the integer digits of a number literal. -/
def numFinish (neg : Bool) (n : Nat) (r : List Char) : Option (Json × List Char) :=
  if numTailOk r then some (.num (if neg then -(n : Int) else (n : Int)), r) else none

def parseNumber (cs : List Char) : Option (Json × List Char) :=
  match cs with
  | [] => none
  | c :: rest =>
    if c = '-' then (parseNatPart rest).bind fun p => numFinish true p.1 p.2
    else (parseNatPart cs).bind fun p => numFinish false p.1 p.2

/-- The tail of a keyword literal (null, true, false) checked character by
character against the input. -/
def parseKeyword (j : Json) : List Char → List Char → Option (Json × List Char)
  | [], cs => some (j, cs)
  | k :: ks, c :: cs => if c = k then parseKeyword j ks cs else none
  | _ :: _, [] => none

mutual
/-- One JSON value; whitespace handling at the points the Python scanner
allows it inside brackets.  The fuel only bounds bracket nesting; loads
supplies more of it than any accepted input can consume. -/
def parseValue : Nat → List Char → Option (Json × List Char)
  | 0, _ => none
  | _ + 1, [] => none
  | fuel + 1, c :: rest =>
    if c = 'n' then parseKeyword .null ['u', 'l', 'l'] rest
    else if c = 't' then parseKeyword (.bool true) ['r', 'u', 'e'] rest
    else if c = 'f' then parseKeyword (.bool false) ['a', 'l', 's', 'e'] rest
    else if c = cQuote then
      (parseStrBody (rest.length + 1) rest).bind fun p => some (.str (String.mk p.1), p.2)
    else if c = '[' then parseArrBody fuel (skipWs rest)
    else if c = '{' then parseObjBody fuel (skipWs rest)
    else parseNumber (c :: rest)
/-- An array body after the opening bracket and leading whitespace. -/
def parseArrBody : Nat → List Char → Option (Json × List Char)
  | 0, _ => none
  | fuel + 1, cs =>
    match cs with
    | ']' :: r => some (.arr .nil, r)
    | rest1 => (parseElems fuel rest1).bind fun p => some (.arr p.1, p.2)
/-- An object body after the opening brace and leading whitespace. -/
def parseObjBody : Nat → List Char → Option (Json × List Char)
  | 0, _ => none
  | fuel + 1, cs =>
    match cs with
    | '}' :: r => some (.obj .nil, r)
    | rest1 => (parseMems fuel rest1).bind fun p => some (.obj p.1, p.2)
/-- Nonempty comma-separated element list of an array, consuming the
closing bracket. -/
def parseElems : Nat → List Char → Option (JArr × List Char)
  | 0, _ => none
  | fuel + 1, cs => (parseValue fuel cs).bind fun p => parseElemsTail fuel p.1 (skipWs p.2)
/-- After one array element: a separator and further elements, or the
closing bracket. -/
def parseElemsTail : Nat → Json → List Char → Option (JArr × List Char)
  | 0, _, _ => none
  | fuel + 1, j, cs =>
    match cs with
    | ',' :: r2 => (parseElems fuel (skipWs r2)).bind fun q => some (JArr.cons j q.1, q.2)
    | ']' :: r2 => some (JArr.cons j .nil, r2)
    | _ => none
/-- Nonempty comma-separated member list of an object, consuming the
closing brace. -/
def parseMems : Nat → List Char → Option (JMems × List Char)
  | 0, _ => none
  | fuel + 1, cs =>
    match cs with
    | [] => none
    | c :: r0 =>
      if c = cQuote then
        (parseStrBody (r0.length + 1) r0).bind fun kp =>
          parseMemsColon fuel (String.mk kp.1) (skipWs kp.2)
      else none
/-- After an object key: the colon separator, then the member value. -/
def parseMemsColon : Nat → String → List Char → Option (JMems × List Char)
  | 0, _, _ => none
  | fuel + 1, k, cs =>
    match cs with
    | ':' :: r2 =>
      (parseValue fuel (skipWs r2)).bind fun p => parseMemsTail fuel k p.1 (skipWs p.2)
    | _ => none
/-- After one object member: a separator and further members, or the
closing brace. -/
def parseMemsTail : Nat → String → Json → List Char → Option (JMems × List Char)
  | 0, _, _, _ => none
  | fuel + 1, k, v, cs =>
    match cs with
    | ',' :: r4 => (parseMems fuel (skipWs r4)).bind fun q => some (JMems.cons k v q.1, q.2)
    | '}' :: r4 => some (JMems.cons k v .nil, r4)
    | _ => none
end

/-- Embedding of Python json.loads: parse one document, then require only
trailing whitespace. -/
def loads (s : String) : Option Json :=
  let cs := skipWs s.data
  match parseValue (3 * cs.length + 1) cs with
  | some (j, rest) => if skipWs rest = [] then some j else none
  | none => none

/-! ## Round trip of the number codec -/

/-- Characters that may follow a printed number without extending it:
end of input, or anything that is neither a digit nor a fraction dot nor an
exponent letter.  Every separator the printer emits qualifies. -/
def numStop : List Char → Bool
  | [] => true
  | c :: _ => !(c.isDigit || c = '.' || c = 'e' || c = 'E')

/-! ## Round trip of loads after dumps -/

/-- First characters a printed JSON value can start with. -/
def goodHead (c : Char) : Prop :=
  c = 'n' ∨ c = 't' ∨ c = 'f' ∨ c = cQuote ∨ c = '[' ∨ c = '{' ∨ c = '-' ∨ c.isDigit = true

/-! ## The urlsafe base64 codec

periods_stock_data stores `base64.urlsafe_b64encode(csv.encode()).decode().replace(eq, empty)`:
urlsafe base64 with every padding character removed.  The caller recovers the
bytes by decoding the unpadded form (equivalently, re-padding first). -/

/-- The urlsafe base64 alphabet in order. -/
def b64Alphabet : List Char :=
  ['A', 'B', 'C', 'D', 'E', 'F', 'G', 'H', 'I', 'J', 'K', 'L', 'M',
   'N', 'O', 'P', 'Q', 'R', 'S', 'T', 'U', 'V', 'W', 'X', 'Y', 'Z',
   'a', 'b', 'c', 'd', 'e', 'f', 'g', 'h', 'i', 'j', 'k', 'l', 'm',
   'n', 'o', 'p', 'q', 'r', 's', 't', 'u', 'v', 'w', 'x', 'y', 'z',
   '0', '1', '2', '3', '4', '5', '6', '7', '8', '9', '-', '_']

/-- Character for a six-bit group. -/
def sextetChar (s : Nat) : Char := b64Alphabet.getD s '?'

/-- Six-bit group for an alphabet character. -/
def charSextet (c : Char) : Option Nat :=
  let i := b64Alphabet.indexOf c
  if i < 64 then some i else none

/-- Byte groups of three encoded into six-bit groups, with the shorter final
group encodings used for one or two leftover bytes. -/
def encGroups : List Nat → List Nat
  | [] => []
  | [a] => [a / 4, a % 4 * 16]
  | [a, b] => [a / 4, a % 4 * 16 + b / 16, b % 16 * 4]
  | a :: b :: c :: rest =>
    a / 4 :: (a % 4 * 16 + b / 16) :: (b % 16 * 4 + c / 64) :: c % 64 :: encGroups rest

/-- Padding characters base64.urlsafe_b64encode appends. -/
def b64Pad (len : Nat) : List Char :=
  if len % 3 = 1 then ['=', '=']
  else if len % 3 = 2 then ['=']
  else []

/-- Embedding of base64.urlsafe_b64encode on a byte list. -/
def b64encode (bs : List Nat) : List Char :=
  (encGroups bs).map sextetChar ++ b64Pad bs.length

/-- Embedding of Python str.replace removing every equals sign, as
periods_stock_data does before storing. -/
def pyStripEq (cs : List Char) : List Char := cs.filter (fun c => !(c = '='))

/-- Decoding of an unpadded six-bit group sequence back into bytes: the
caller-side inverse of the stored form. -/
def decGroups : List Nat → Option (List Nat)
  | [] => some []
  | [_] => none
  | [w, x] => some [w * 4 + x / 16]
  | [w, x, y] => some [w * 4 + x / 16, x % 16 * 16 + y / 4]
  | w :: x :: y :: z :: rest =>
    (decGroups rest).map fun bs =>
      (w * 4 + x / 16) :: (x % 16 * 16 + y / 4) :: (y % 4 * 64 + z) :: bs

/-- Full decoder for the unpadded stored string. -/
def b64decodeNoPad (cs : List Char) : Option (List Nat) :=
  (cs.mapM charSextet).bind decGroups

/-- UTF-8 bytes of one character, as Python str.encode produces them. -/
def utf8Char (c : Char) : List Nat :=
  if c.toNat < 128 then [c.toNat]
  else if c.toNat < 2048 then [192 + c.toNat / 64, 128 + c.toNat % 64]
  else if c.toNat < 65536 then
    [224 + c.toNat / 4096, 128 + c.toNat / 64 % 64, 128 + c.toNat % 64]
  else
    [240 + c.toNat / 262144, 128 + c.toNat / 4096 % 64, 128 + c.toNat / 64 % 64,
     128 + c.toNat % 64]

/-- UTF-8 bytes of a string (Python str.encode with the default encoding). -/
def utf8Bytes (s : String) : List Nat :=
  s.data.foldr (fun c acc => utf8Char c ++ acc) []

/-! ## Date validation (validate_date_format and the range check)

datetime.strptime with the %Y-%m-%d pattern: exactly four digits, a dash, a
month matching 1[0-2]|0[1-9]|[1-9], a dash, a day matching
3[01]|[12][0-9]|0[1-9]|[1-9], end of string, and then construction of the
datetime object checks the day against the month length (with leap years)
and rejects year zero. -/

/-- Month part of the strptime pattern: the regex 1[0-2]|0[1-9]|[1-9] with
its alternation order. -/
def matchMonth : List Char → Option (Nat × List Char)
  | [] => none
  | c :: rest =>
    if c = '1' then
      match rest with
      | c2 :: rest2 =>
        if c2 = '0' ∨ c2 = '1' ∨ c2 = '2' then some (10 + digitVal c2, rest2)
        else some (1, c2 :: rest2)
      | [] => some (1, [])
    else if c = '0' then
      match rest with
      | c2 :: rest2 =>
        if c2.isDigit ∧ ¬ c2 = '0' then some (digitVal c2, rest2) else none
      | [] => none
    else if c.isDigit ∧ ¬ c = '0' then some (digitVal c, rest)
    else none

/-- Day part of the strptime pattern: the regex 3[01]|[12][0-9]|0[1-9]|[1-9]
with its alternation order. -/
def matchDay : List Char → Option (Nat × List Char)
  | [] => none
  | c :: rest =>
    if c = '3' then
      match rest with
      | c2 :: rest2 =>
        if c2 = '0' ∨ c2 = '1' then some (30 + digitVal c2, rest2)
        else some (3, c2 :: rest2)
      | [] => some (3, [])
    else if c = '1' ∨ c = '2' then
      match rest with
      | c2 :: rest2 =>
        if c2.isDigit then some (digitVal c * 10 + digitVal c2, rest2)
        else some (digitVal c, c2 :: rest2)
      | [] => some (digitVal c, [])
    else if c = '0' then
      match rest with
      | c2 :: rest2 =>
        if c2.isDigit ∧ ¬ c2 = '0' then some (digitVal c2, rest2) else none
      | [] => none
    else if c.isDigit ∧ ¬ c = '0' then some (digitVal c, rest)
    else none

/-- Leap year rule used by the datetime module. -/
def isLeapYear (y : Nat) : Bool :=
  y % 4 = 0 && (y % 100 ≠ 0 || y % 400 = 0)

/-- Days in a month as datetime validates them. -/
def daysInMonth (y m : Nat) : Nat :=
  if m = 2 then (if isLeapYear y then 29 else 28)
  else if m = 4 ∨ m = 6 ∨ m = 9 ∨ m = 11 then 30
  else 31

/-- Embedding of datetime.strptime(s, the dashed year-month-day pattern)
followed by datetime construction: either the (year, month, day) triple or
failure. -/
def parseDate (s : String) : Option (Nat × Nat × Nat) :=
  match s.data with
  | y1 :: y2 :: y3 :: y4 :: d1 :: rest =>
    if y1.isDigit ∧ y2.isDigit ∧ y3.isDigit ∧ y4.isDigit ∧ d1 = '-' then
      (matchMonth rest).bind fun mp =>
        match mp.2 with
        | d2 :: rest2 =>
          if d2 = '-' then
            (matchDay rest2).bind fun dp =>
              match dp.2 with
              | [] =>
                let y := ((digitVal y1 * 10 + digitVal y2) * 10 + digitVal y3) * 10
                  + digitVal y4
                if 1 ≤ y ∧ 1 ≤ dp.1 ∧ dp.1 ≤ daysInMonth y mp.1 then
                  some (y, mp.1, dp.1)
                else none
              | _ :: _ => none
          else none
        | [] => none
    else none
  | _ => none

/-- Embedding of validate_date_format from src/main.py. -/
def validate_date_format (date_str : String) : Bool :=
  (parseDate date_str).isSome

/-- datetime comparison on the parsed dates: lexicographic on
(year, month, day). -/
def dateLe (a b : Nat × Nat × Nat) : Bool :=
  a.1 < b.1 || (a.1 = b.1 && (a.2.1 < b.2.1 || (a.2.1 = b.2.1 && a.2.2 ≤ b.2.2)))

/-! ## Request handler embeddings

Each handler from src/main.py is a function of an explicit world of oracle
answers (Redis contents, yfinance and HTTP outcomes, random draws) returning
the response envelope — or an unhandled Python exception — together with the
ordered trace of cache reads, cache writes and outbound fetch attempts. -/

/-- One observable side effect of a handler. -/
inductive Eff where
  | read : String → Eff
  | write : String → Nat → String → Eff
  | fetch : String → Eff
deriving DecidableEq

/-- Unhandled Python exceptions the handlers can let escape. -/
inductive PyErr where
  | typeError
  | storeError
  | jsonError
  | requestError
  | nameError
  | keyError
deriving DecidableEq

/-- The response dictionaries the handlers build, with optional fields for
the keys that only some envelopes carry. -/
structure Envelope where
  status : Bool
  symbol : Option String
  result : Option Json
  error : Option String
  cache : Option String
deriving DecidableEq

/-- Environment-derived configuration read at startup in src/main.py. -/
structure Env where
  isLocalEnv : Bool
  cacheExpiration : Nat
  cacheExpirationShort : Nat
  cacheExpirationLong : Nat
  sessionProxy : Bool
  sessionA : Option String
  sessionB : Option String
  httpProxy : Option String
  rapidApiKey : Option String
  timeOut : Nat

/-- Embedding of generate_random_string: a join of independently drawn
decimal digit characters. -/
def generate_random_string (draws : Nat → Fin 10) (length : Nat) : String :=
  String.mk ((List.range length).map fun i => digitChar (draws i).val)

/-- The proxy-selection block each handler runs before its outbound fetch
(lines 150-156, 236-241 and 292-297 of src/main.py).  The concatenation
before the if-branch runs unconditionally, so an absent session fragment
raises a TypeError whatever the mode; with both fragments present the
branch picks the session proxy or the static one. -/
def selectProxyLines (env : Env) (tok : String) : Except PyErr (Option String) :=
  match env.sessionA, env.sessionB with
  | some a, some b =>
    if env.sessionProxy then .ok (some (a ++ tok ++ b))
    else .ok env.httpProxy
  | _, _ => .error .typeError

/-- Redis get followed by the Python truthiness test on the reply: an
if-test on cached_data treats both a missing key and an empty string as a
miss. -/
def truthyLookup (cache : String → Option String) (key : String) : Option String :=
  match cache key with
  | some s => if s.isEmpty then none else some s
  | none => none

/-- Cache key of the ticker-info endpoint for a raw path symbol. -/
def tickerCacheKey (symbol : String) : String :=
  "stock_ticker_info:" ++ pyUpper symbol

/-- Cache key of the fixed-period endpoint for a raw path symbol. -/
def periodsCacheKey (symbol periods : String) : String :=
  "stock_periods:" ++ pyUpper symbol ++ ":" ++ periods

/-- Failure envelope with the echoed symbol. -/
def envFail (symbol msg : String) : Envelope :=
  { status := false, symbol := some symbol, result := none, error := some msg, cache := none }

def jmemsHasKey (key : String) : JMems → Bool
  | .nil => false
  | .cons k _ t => k = key || jmemsHasKey key t

def jmemsFind (key : String) : JMems → Option Json
  | .nil => none
  | .cons k v t => if k = key then some v else jmemsFind key t

def jmemsLen : JMems → Nat
  | .nil => 0
  | .cons _ _ t => 1 + jmemsLen t

def jarrLen : JArr → Nat
  | .nil => 0
  | .cons _ t => 1 + jarrLen t

def jarrGet : JArr → Nat → Option Json
  | .nil, _ => none
  | .cons h _, 0 => some h
  | .cons _ t, i + 1 => jarrGet t i

def jarrContainsStr (key : String) : JArr → Bool
  | .nil => false
  | .cons (.str s) t => s = key || jarrContainsStr key t
  | .cons _ t => jarrContainsStr key t

def startsWithChars : List Char → List Char → Bool
  | [], _ => true
  | _ :: _, [] => false
  | a :: pat, b :: txt => a = b && startsWithChars pat txt

def containsChars (pat : List Char) : List Char → Bool
  | [] => startsWithChars pat []
  | c :: cs => startsWithChars pat (c :: cs) || containsChars pat cs

/-- Python membership (the in operator) applied to a decoded JSON value:
key membership for a dict, element equality for a list, substring test for
a string, TypeError otherwise. -/
def pyIn (key : String) : Json → Except PyErr Bool
  | .obj ms => .ok (jmemsHasKey key ms)
  | .arr xs => .ok (jarrContainsStr key xs)
  | .str s => .ok (containsChars key.data s.data)
  | _ => .error .typeError

/-- Python string-key subscription on a decoded JSON value. -/
def pyIndex (j : Json) (key : String) : Except PyErr Json :=
  match j with
  | .obj ms =>
    match jmemsFind key ms with
    | some v => .ok v
    | none => .error .keyError
  | _ => .error .typeError

/-- Python len on a decoded JSON value. -/
def pyLen : Json → Except PyErr Nat
  | .obj ms => .ok (jmemsLen ms)
  | .arr xs => .ok (jarrLen xs)
  | .str s => .ok s.length
  | _ => .error .typeError

/-- Python integer subscription on a decoded JSON value. -/
def pyIndexNat (j : Json) (i : Nat) : Except PyErr Json :=
  match j with
  | .arr xs =>
    match jarrGet xs i with
    | some v => .ok v
    | none => .error .keyError
  | _ => .error .typeError

/-- The fallback-payload guard and extraction of get_stock_info (line 193
of src/main.py): the chained membership/length tests with Python
short-circuiting, then the summaryProfile extraction. -/
def extractSummaryProfile (result : Json) : Except PyErr (Option Json) := do
  let b1 ← pyIn "quoteSummary" result
  if !b1 then return none
  let qs ← pyIndex result "quoteSummary"
  let b2 ← pyIn "result" qs
  if !b2 then return none
  let rArr ← pyIndex qs "result"
  let n ← pyLen rArr
  if n = 0 then return none
  let first ← pyIndexNat rArr 0
  let b4 ← pyIn "summaryProfile" first
  if !b4 then return none
  let prof ← pyIndex first "summaryProfile"
  return some prof

/-- World of oracle answers for one request to the ticker-info endpoint. -/
structure TickerWorld where
  env : Env
  cache : String → Option String
  setexOk : Bool
  setexErrMsg : String
  draws : Nat → Fin 10
  infoResult : Except String JMems
  rapidResponse : Except String (Nat × Json)

/-- The except-branch of get_stock_info (lines 177-213 of src/main.py):
without a RapidAPI key the failure envelope; with one, the fallback call,
whose full response body — not the extracted profile — is written to the
cache on success.  requests.get or setex exceptions here are uncaught. -/
def tickerExceptBranch (w : TickerWorld) (symbol cache_key errMsg : String) :
    Except PyErr Envelope × List Eff :=
  match w.env.rapidApiKey with
  | none => (.ok (envFail symbol ("API request failed: " ++ errMsg)), [])
  | some _ =>
    match w.rapidResponse with
    | .error _ => (.error .requestError, [.fetch "rapidapi_get_profile"])
    | .ok (code, body) =>
      if code = 200 then
        match extractSummaryProfile body with
        | .error e => (.error e, [.fetch "rapidapi_get_profile"])
        | .ok (some profile) =>
          if w.env.isLocalEnv then
            (.ok { status := true, symbol := some symbol, result := some profile,
                   error := none, cache := none },
             [.fetch "rapidapi_get_profile"])
          else if w.setexOk then
            (.ok { status := true, symbol := some symbol, result := some profile,
                   error := none, cache := none },
             [.fetch "rapidapi_get_profile",
              .write cache_key w.env.cacheExpirationLong (dumps body)])
          else (.error .storeError, [.fetch "rapidapi_get_profile"])
        | .ok none =>
          (.ok (envFail symbol "Invalid stock symbol"), [.fetch "rapidapi_get_profile"])
      else
        (.ok (envFail symbol ("API request failed: " ++ String.mk (natChars code))),
         [.fetch "rapidapi_get_profile"])

/-- The fetch phase of get_stock_info after a cache miss (lines 150-213 of
src/main.py): proxy selection, the yfinance info call inside the try-block,
and — still inside the same try — the cache write, whose failure therefore
falls into the except-branch. -/
def tickerFetchPhase (w : TickerWorld) (symbol cache_key : String) (effs0 : List Eff) :
    Except PyErr Envelope × List Eff :=
  let tok := generate_random_string w.draws 8
  match selectProxyLines w.env tok with
  | .error e => (.error e, effs0)
  | .ok _ =>
    match w.infoResult with
    | .error msg =>
      let p := tickerExceptBranch w symbol cache_key msg
      (p.1, effs0 ++ [.fetch "yf_ticker_info"] ++ p.2)
    | .ok info =>
      if jmemsLen info = 0 ∨ ¬ jmemsHasKey "symbol" info then
        (.ok (envFail symbol "Invalid stock symbol"), effs0 ++ [.fetch "yf_ticker_info"])
      else if w.env.isLocalEnv then
        (.ok { status := true, symbol := some symbol, result := some (.obj info),
               error := none, cache := none },
         effs0 ++ [.fetch "yf_ticker_info"])
      else if w.setexOk then
        (.ok { status := true, symbol := some symbol, result := some (.obj info),
               error := none, cache := none },
         effs0 ++ [.fetch "yf_ticker_info",
           .write cache_key w.env.cacheExpirationLong (dumps (.obj info))])
      else
        let p := tickerExceptBranch w symbol cache_key w.setexErrMsg
        (p.1, effs0 ++ [.fetch "yf_ticker_info"] ++ p.2)

/-- Embedding of the /tickers endpoint handler get_stock_info. -/
def get_stock_info (w : TickerWorld) (sym0 : String) : Except PyErr Envelope × List Eff :=
  let symbol := pyUpper sym0
  let cache_key := "stock_ticker_info:" ++ symbol
  if w.env.isLocalEnv then tickerFetchPhase w symbol cache_key []
  else
    match truthyLookup w.cache cache_key with
    | some s =>
      match loads s with
      | some j =>
        (.ok { status := true, symbol := some symbol, result := some j,
               error := none, cache := some "hit" },
         [.read cache_key])
      | none => (.error .jsonError, [.read cache_key])
    | none => tickerFetchPhase w symbol cache_key [.read cache_key]

/-- Outcome of the yfinance range-history call in history_stock_data. -/
inductive HistOutcome where
  | raised : String → HistOutcome
  | empty : HistOutcome
  | data : Json → HistOutcome

/-- World of oracle answers for one request to the history endpoint. -/
structure HistoryWorld where
  env : Env
  draws : Nat → Fin 10
  history : HistOutcome

/-- Embedding of the /history endpoint handler history_stock_data.  The
source validates both dates with validate_date_format and then re-parses
them with strptime; since validate_date_format is exactly parseDate
succeeding, the two steps are written as one match. -/
def history_stock_data (w : HistoryWorld) (sym0 start end_ : String) :
    Except PyErr Envelope × List Eff :=
  let symbol := pyUpper sym0
  match parseDate start, parseDate end_ with
  | some ds, some de =>
    if dateLe de ds then
      (.ok (envFail symbol "End date must be greater than start date."), [])
    else
      let tok := generate_random_string w.draws 8
      match selectProxyLines w.env tok with
      | .error e => (.error e, [])
      | .ok _ =>
        match w.history with
        | .raised m =>
          (.ok (envFail symbol ("API request failed: " ++ m)), [.fetch "yf_history_range"])
        | .empty =>
          (.ok (envFail symbol "No data found for the given symbol and date range."),
           [.fetch "yf_history_range"])
        | .data j =>
          (.ok { status := true, symbol := some symbol, result := some j,
                 error := none, cache := none },
           [.fetch "yf_history_range"])
  | _, _ => (.ok (envFail symbol "Invalid date format. Please use yyyy-MM-dd."), [])

/-- A pandas data frame at the granularity the handlers observe: a header
line and the data rows. -/
structure Df where
  header : String
  rows : List String

/-- pandas to_csv at the same granularity: header then rows, one line
each. -/
def Df.toCsv (d : Df) : String := String.intercalate "\n" (d.header :: d.rows) ++ "\n"

/-- Outcome of the one-week probe history call in periods_stock_data. -/
inductive ProbeResult where
  | ok : ProbeResult
  | pricesMissing : String → ProbeResult
  | other : String → ProbeResult

/-- World of oracle answers for one request to the fixed-period endpoint. -/
structure PeriodsWorld where
  env : Env
  cache : String → Option String
  setexOk : Bool
  setexErrMsg : String
  draws : Nat → Fin 10
  probe : ProbeResult
  download : Except String Df

/-- The valid period tokens of src/main.py line 273. -/
def valid_periods : List String :=
  ["1d", "5d", "1mo", "3mo", "6mo", "1y", "2y", "5y", "10y", "ytd", "max"]

/-- The fetch phase of periods_stock_data after a cache miss (lines 292-356
of src/main.py): proxy selection, the one-week probe with its two except
clauses, then the download try-block, inside which the empty check, the
row-count check, the base64 encoding and the cache write happen — so a
setex failure is caught by that try and reported as a failed request. -/
def periodsFetchPhase (w : PeriodsWorld) (symbol periods cache_key : String)
    (effs0 : List Eff) : Except PyErr Envelope × List Eff :=
  let tok := generate_random_string w.draws 8
  match selectProxyLines w.env tok with
  | .error e => (.error e, effs0)
  | .ok _ =>
    match w.probe with
    | .pricesMissing m =>
      (.ok (envFail symbol ("YFPricesMissingError: " ++ m)),
       effs0 ++ [.fetch "yf_history_1wk_probe"])
    | .other m =>
      (.ok (envFail symbol ("request failed: " ++ m)),
       effs0 ++ [.fetch "yf_history_1wk_probe"])
    | .ok =>
      let intervals := if periods = "1d" then "30m" else "1d"
      let effs1 := effs0 ++ [.fetch "yf_history_1wk_probe",
        .fetch ("yf_download_" ++ periods ++ "_" ++ intervals)]
      match w.download with
      | .error m => (.ok (envFail symbol ("API request failed: " ++ m)), effs1)
      | .ok df =>
        if df.rows.isEmpty then
          (.ok (envFail symbol "No data found for the given symbol and period."), effs1)
        else
          let result := df.toCsv
          if df.rows.length < 10 then
            (.ok (envFail symbol "Data rows are less than 10 rows."), effs1)
          else if w.env.isLocalEnv then
            (.ok { status := true, symbol := some symbol, result := some (.str result),
                   error := none, cache := none }, effs1)
          else
            let result2 := String.mk (pyStripEq (b64encode (utf8Bytes result)))
            if w.setexOk then
              (.ok { status := true, symbol := some symbol, result := some (.str result2),
                     error := none, cache := none },
               effs1 ++ [.write cache_key w.env.cacheExpiration result2])
            else
              (.ok (envFail symbol ("API request failed: " ++ w.setexErrMsg)), effs1)

/-- The body of periods_stock_data past the period validation (lines 281-356
of src/main.py): cache-key construction, the cache lookup with the hit
envelope, and the fetch phase on a miss. -/
def periodsAfterValidation (w : PeriodsWorld) (sym0 periods : String) :
    Except PyErr Envelope × List Eff :=
  let symbol := pyUpper sym0
  let cache_key := "stock_periods:" ++ symbol ++ ":" ++ periods
  if w.env.isLocalEnv then periodsFetchPhase w symbol periods cache_key []
  else
    match truthyLookup w.cache cache_key with
    | some s =>
      (.ok { status := true, symbol := some symbol, result := some (.str s),
             error := none, cache := some "hit" },
       [.read cache_key])
    | none => periodsFetchPhase w symbol periods cache_key [.read cache_key]

/-- Embedding of the /periods endpoint handler periods_stock_data. -/
def periods_stock_data (w : PeriodsWorld) (sym0 periods : String) :
    Except PyErr Envelope × List Eff :=
  let symbol := pyUpper sym0
  if periods ∉ valid_periods then
    (.ok (envFail symbol ("Invalid period. Must be one of: " ++
      String.intercalate ", " valid_periods)), [])
  else periodsAfterValidation w sym0 periods

/-- World of oracle answers for one request to the symbol-list endpoint. -/
structure AllTickersWorld where
  env : Env
  cache : String → Option String
  setexOk : Bool
  setexErrMsg : String
  fetchRows : Except String (List String)

/-- Python replace of every slash by a dash, as applied to each ticker. -/
def pyReplaceSlashDash (t : String) : String :=
  String.mk (t.data.map fun c => if c = '/' then '-' else c)

def jarrOfStrings : List String → JArr
  | [] => .nil
  | s :: rest => .cons (.str s) (jarrOfStrings rest)

/-- Embedding of the /stock/symbol/all handler get_all_us_stock_tickers.
In the local environment the Redis client r is never assigned, so the
unconditional r.get raises a NameError; the screener fetch, the filtering
and the cache write all sit in one try-block, so a setex failure is caught
and reported as a failed request. -/
def get_all_us_stock_tickers (w : AllTickersWorld) : Except PyErr Envelope × List Eff :=
  let cache_key := "all_stock_tickers"
  if w.env.isLocalEnv then (.error .nameError, [])
  else
    match truthyLookup w.cache cache_key with
    | some s =>
      match loads s with
      | some j =>
        (.ok { status := true, symbol := none, result := some j,
               error := none, cache := some "hit" },
         [.read cache_key])
      | none => (.error .jsonError, [.read cache_key])
    | none =>
      match w.fetchRows with
      | .error m =>
        (.ok { status := false, symbol := none, result := none,
               error := some ("request failed: " ++ m), cache := none },
         [.read cache_key, .fetch "nasdaq_screener"])
      | .ok rows =>
        let tickers := (rows.filter fun t => !(t.data.contains '^')).map pyReplaceSlashDash
        if w.setexOk then
          (.ok { status := true, symbol := none,
                 result := some (.arr (jarrOfStrings tickers)),
                 error := none, cache := none },
           [.read cache_key, .fetch "nasdaq_screener",
            .write cache_key w.env.cacheExpirationLong (dumps (.arr (jarrOfStrings tickers)))])
        else
          (.ok { status := false, symbol := none, result := none,
                 error := some ("request failed: " ++ w.setexErrMsg), cache := none },
           [.read cache_key, .fetch "nasdaq_screener"])

/-! ## Concrete fixtures used by the claim witnesses and counterexamples -/

/-- A configuration with the environment defaults of src/main.py lines
32-42 (no proxies, no secondary key, Redis available). -/
def defaultEnv : Env :=
  { isLocalEnv := false, cacheExpiration := 3600, cacheExpirationShort := 600,
    cacheExpirationLong := 82800, sessionProxy := false, sessionA := none,
    sessionB := none, httpProxy := none, rapidApiKey := none, timeOut := 20 }

/-- A configuration with both session fragments set and session mode off. -/
def fragmentsEnv : Env :=
  { defaultEnv with sessionA := some "http://user-", sessionB := some ":pw@gate.io" }

/-! ## C5 and C6: input validation of the history and period endpoints -/

/-- A history world whose oracle returns data, used to exercise the
validation guards. -/
def c5World : HistoryWorld :=
  { env := fragmentsEnv, draws := fun _ => 0, history := .data (.num 1) }

/-! ## C6: period-token validation -/

/-- A periods world used by the C6 witness. -/
def c6World : PeriodsWorld :=
  { env := fragmentsEnv, cache := fun _ => none, setexOk := true, setexErrMsg := "",
    draws := fun _ => 0, probe := .ok, download := .error "x" }

/-! ## C7: case normalization of the symbol -/

/-- A ticker world with failing oracles, used only to witness that the
handler output is determined by the upper-cased symbol. -/
def someTickerWorld : TickerWorld :=
  { env := fragmentsEnv, cache := fun _ => none, setexOk := true, setexErrMsg := "",
    draws := fun _ => 0, infoResult := .error "e", rapidResponse := .error "e" }

/-- A ticker world whose info fetch succeeds, so the long-TTL write
happens. -/
def c8TickerWorld : TickerWorld :=
  { env := fragmentsEnv, cache := fun _ => none, setexOk := true, setexErrMsg := "",
    draws := fun _ => 0,
    infoResult := .ok (JMems.cons "symbol" (.str "A") JMems.nil),
    rapidResponse := .error "e" }

/-- A ten-row frame, large enough to be cached. -/
def c8Df : Df :=
  { header := "Date,Close",
    rows := ["r1", "r2", "r3", "r4", "r5", "r6", "r7", "r8", "r9", "r10"] }

/-- A periods world whose probe and download succeed with ten rows, so the
default-TTL write happens. -/
def c8PeriodsWorld : PeriodsWorld :=
  { env := fragmentsEnv, cache := fun _ => none, setexOk := true, setexErrMsg := "",
    draws := fun _ => 0, probe := .ok, download := .ok c8Df }

/-- A symbol-list world whose screener fetch succeeds, so the long-TTL
write happens. -/
def c8AllWorld : AllTickersWorld :=
  { env := fragmentsEnv, cache := fun _ => none, setexOk := true, setexErrMsg := "",
    fetchRows := .ok ["AAA", "BBB"] }

/-- A history world whose fetch succeeds, witnessing that the history
endpoint still performs no cache effect. -/
def c8HistoryWorld : HistoryWorld :=
  { env := fragmentsEnv, draws := fun _ => 0, history := .data (.num 1) }

/-- A three-row frame: non-empty but under the threshold. -/
def c9Df : Df := { header := "Date,Close", rows := ["1", "2", "3"] }

/-- A ten-row frame, at the threshold. -/
def c9Df10 : Df :=
  { header := "Date,Close",
    rows := ["1", "2", "3", "4", "5", "6", "7", "8", "9", "10"] }

/-- A periods world downloading the three-row frame. -/
def c9World : PeriodsWorld :=
  { env := fragmentsEnv, cache := fun _ => none, setexOk := true, setexErrMsg := "",
    draws := fun _ => 0, probe := .ok, download := .ok c9Df }

/-- The same world downloading the ten-row frame. -/
def c9World2 : PeriodsWorld :=
  { c9World with download := .ok c9Df10 }

/-! ## C10: the one-week probe gates the period download -/

/-- Recognizes the effect of the yf.download call of periods_stock_data. -/
def isDownloadEff : Eff → Bool
  | .fetch s => startsWithChars "yf_download_".data s.data
  | _ => false

/-- A periods world whose probe raises YFPricesMissingError. -/
def c10World : PeriodsWorld :=
  { env := fragmentsEnv, cache := fun _ => none, setexOk := true, setexErrMsg := "",
    draws := fun _ => 0, probe := .pricesMissing "no price data",
    download := .error "unused" }

/-- The same world with a generic probe failure. -/
def c10World2 : PeriodsWorld :=
  { c10World with probe := .other "boom" }

/-- The same world with a successful probe. -/
def c10World3 : PeriodsWorld :=
  { c10World with probe := .ok }

/-! ## C1: the fallback path caches the full body, not the returned payload -/

/-- Configuration with the RapidAPI key set. -/
def c1Env : Env := { fragmentsEnv with rapidApiKey := some "k" }

/-- The RapidAPI quoteSummary response body of line 185 of src/main.py. -/
def c1Body : Json :=
  .obj (.cons "quoteSummary"
    (.obj (.cons "result"
      (.arr (.cons
        (.obj (.cons "summaryProfile"
          (.obj (.cons "sector" (.str "Tech") JMems.nil)) JMems.nil))
        JArr.nil)) JMems.nil)) JMems.nil)

/-- The profile extracted from c1Body at line 194 of src/main.py. -/
def c1Profile : Json := .obj (.cons "sector" (.str "Tech") JMems.nil)

/-- First call: cold cache, yfinance raises, RapidAPI answers 200 with
c1Body. -/
def c1World : TickerWorld :=
  { env := c1Env, cache := fun _ => none, setexOk := true, setexErrMsg := "",
    draws := fun _ => 0, infoResult := .error "boom",
    rapidResponse := .ok (200, c1Body) }

/-- Second call: the cache now holds exactly what the first call wrote. -/
def c1World2 : TickerWorld :=
  { c1World with
    cache := fun k => if k = "stock_ticker_info:MSFT" then some (dumps c1Body) else none }

/-! ## C2: a failing cache write does fail the request -/

/-- A ten-row frame for the C2 counterexample. -/
def c2Df : Df :=
  { header := "Date,Close",
    rows := ["a1", "a2", "a3", "a4", "a5", "a6", "a7", "a8", "a9", "a10"] }

/-- A periods world whose download succeeds with ten rows but whose setex
raises. -/
def c2World : PeriodsWorld :=
  { env := fragmentsEnv, cache := fun _ => none, setexOk := false,
    setexErrMsg := "redis down", draws := fun _ => 0, probe := .ok,
    download := .ok c2Df }

/-- A ticker world whose info fetch succeeds but whose setex raises, with
no RapidAPI key configured. -/
def c2TickerWorld : TickerWorld :=
  { env := fragmentsEnv, cache := fun _ => none, setexOk := false,
    setexErrMsg := "redis down", draws := fun _ => 0,
    infoResult := .ok (JMems.cons "symbol" (.str "A") JMems.nil),
    rapidResponse := .error "x" }

/-! ## C3: proxy selection and the unconditional fragment concatenation -/

/-- A ticker world under the default configuration: no session fragments,
session mode off, no static proxy. -/
def c3World : TickerWorld :=
  { env := defaultEnv, cache := fun _ => none, setexOk := true, setexErrMsg := "",
    draws := fun _ => 3, infoResult := .error "x", rapidResponse := .error "x" }

/-! ## Theorems -/

theorem digitVal_digitChar : ∀ d < 10, digitVal (digitChar d) = d := by decide

theorem digitChar_isDigit : ∀ d < 10, (digitChar d).isDigit = true := by decide

theorem digitChar_ne_zero : ∀ d < 10, d ≠ 0 → digitChar d ≠ '0' := by decide

theorem char_toNat_ofNat {n : Nat} (h : n.isValidChar) : (Char.ofNat n).toNat = n := by
  simp [Char.ofNat, h, Char.ofNatAux, Char.toNat]
  rfl

theorem char_toNat_lt (c : Char) : c.toNat < 1114112 := by
  have hv := c.valid
  show c.val.toNat < 1114112
  rcases hv with h | ⟨h1, h2⟩ <;> omega

theorem upperChar_idem (c : Char) : upperChar (upperChar c) = upperChar c := by
  unfold upperChar
  by_cases h : 97 ≤ c.toNat ∧ c.toNat ≤ 122
  · rw [if_pos h]
    have hval : (c.toNat - 32).isValidChar := by
      left; omega
    have htn : (Char.ofNat (c.toNat - 32)).toNat = c.toNat - 32 :=
      char_toNat_ofNat hval
    rw [if_neg (by omega)]
  · rw [if_neg h, if_neg h]

theorem natCharsAux_zero (fuel : Nat) : natCharsAux fuel 0 = [] := by
  cases fuel <;> simp [natCharsAux]

/-- digitsVal with an explicit accumulator view over an appended digit. -/
theorem digitsVal_append_digit (l : List Char) (c : Char) :
    digitsVal (l ++ [c]) = digitsVal l * 10 + digitVal c := by
  simp [digitsVal, List.foldl_append]

theorem natCharsAux_spec :
    ∀ fuel n, n ≤ fuel → 0 < n →
      (∀ c ∈ natCharsAux fuel n, c.isDigit = true) ∧
      (∃ c t, natCharsAux fuel n = c :: t ∧ c ≠ '0') ∧
      digitsVal (natCharsAux fuel n) = n := by
  intro fuel
  induction fuel with
  | zero => intro n hle hpos; omega
  | succ fuel ih =>
    intro n hle hpos
    have hne : n ≠ 0 := by omega
    rw [natCharsAux, if_neg hne]
    by_cases hsmall : n < 10
    · have h0 : n / 10 = 0 := by omega
      rw [h0, natCharsAux_zero]
      refine ⟨?_, ⟨digitChar (n % 10), [], by simp, ?_⟩, ?_⟩
      · intro c hc
        simp at hc
        subst hc
        exact digitChar_isDigit _ (by omega)
      · have : n % 10 = n := by omega
        rw [this]
        exact digitChar_ne_zero n (by omega) hne
      · simp [digitsVal, digitVal_digitChar (n % 10) (by omega)]
        omega
    · have hq : 0 < n / 10 := by omega
      have hqle : n / 10 ≤ fuel := by omega
      obtain ⟨hdig, ⟨c, t, heq, hc0⟩, hval⟩ := ih (n / 10) hqle hq
      refine ⟨?_, ⟨c, t ++ [digitChar (n % 10)], by rw [heq]; simp, hc0⟩, ?_⟩
      · intro d hd
        rw [List.mem_append] at hd
        rcases hd with hd | hd
        · exact hdig d hd
        · simp at hd
          subst hd
          exact digitChar_isDigit _ (by omega)
      · rw [digitsVal_append_digit, hval, digitVal_digitChar (n % 10) (by omega)]
        omega

theorem natChars_spec (n : Nat) :
    (∀ c ∈ natChars n, c.isDigit = true) ∧
    (∃ c t, natChars n = c :: t) ∧
    digitsVal (natChars n) = n ∧
    (0 < n → ∃ c t, natChars n = c :: t ∧ c ≠ '0') := by
  unfold natChars
  by_cases h : n = 0
  · subst h
    refine ⟨by decide, ⟨'0', [], rfl⟩, by decide, by omega⟩
  · rw [if_neg h]
    obtain ⟨hdig, ⟨c, t, heq, hc0⟩, hval⟩ := natCharsAux_spec n n le_rfl (by omega)
    exact ⟨hdig, ⟨c, t, heq⟩, hval, fun _ => ⟨c, t, heq, hc0⟩⟩

/-- takeWhile over an append whose first part wholly satisfies the predicate
and whose second part starts with a failing element (or is empty). -/
theorem takeWhile_append_of_all {p : Char → Bool} :
    ∀ (A B : List Char), (∀ a ∈ A, p a = true) →
      (B = [] ∨ ∃ b t, B = b :: t ∧ p b = false) →
      (A ++ B).takeWhile p = A ∧ (A ++ B).dropWhile p = B := by
  intro A
  induction A with
  | nil =>
    intro B _ hB
    rcases hB with rfl | ⟨b, t, rfl, hb⟩
    · simp
    · simp [List.takeWhile, List.dropWhile, hb]
  | cons a A ih =>
    intro B hA hB
    have ha : p a = true := hA a (by simp)
    have := ih B (fun x hx => hA x (by simp [hx])) hB
    simp [List.takeWhile, List.dropWhile, ha, this.1, this.2]

theorem optBindSome {α β : Type} (a : α) (f : α → Option β) : (some a).bind f = f a := rfl

theorem consStr_some (c : Char) (l r : List Char) :
    consStr c (some (l, r)) = some (c :: l, r) := rfl

/-! ## Round trip of the string codec -/

theorem parseHexDigit_hexDigitChar : ∀ m < 16, parseHexDigit (hexDigitChar m) = some m := by
  decide

theorem char_isValid (c : Char) : c.toNat < 55296 ∨ (57343 < c.toNat ∧ c.toNat < 1114112) := by
  have hv := c.valid
  show c.val.toNat < 55296 ∨ (57343 < c.val.toNat ∧ c.val.toNat < 1114112)
  rcases hv with h | ⟨h1, h2⟩
  · left; exact h
  · right; exact ⟨h1, h2⟩

theorem parseHex4Q_hex4 (n : Nat) (h16 : n < 65536) (tail : List Char) :
    parseHex4Q (hex4 n ++ tail) = some (n, tail) := by
  simp only [hex4, List.cons_append, List.nil_append, parseHex4Q]
  rw [parseHexDigit_hexDigitChar _ (by omega), parseHexDigit_hexDigitChar _ (by omega),
      parseHexDigit_hexDigitChar _ (by omega), parseHexDigit_hexDigitChar _ (by omega)]
  have h : ((n / 4096 % 16 * 16 + n / 256 % 16) * 16 + n / 16 % 16) * 16 + n % 16 = n := by
    omega
  simp [h]

theorem parseUEscape_cont (n : Nat) (h16 : n < 65536) (tail : List Char) :
    parseUEscape (hex4 n ++ tail) = parseUEscapeCont n tail := by
  rw [parseUEscape, parseHex4Q_hex4 n h16 tail]
  rfl

theorem parseUEscape_bmp (n : Nat) (hlo : ¬ (55296 ≤ n ∧ n ≤ 56319))
    (hhi : ¬ (56320 ≤ n ∧ n ≤ 57343)) (h16 : n < 65536) (tail : List Char) :
    parseUEscape (hex4 n ++ tail) = some (Char.ofNat n, tail) := by
  rw [parseUEscape_cont n h16 tail, parseUEscapeCont, if_neg hlo, if_neg hhi]

theorem parseStrBody_escapeList :
    ∀ (l : List Char) (fuel : Nat) (rest : List Char), l.length < fuel →
      parseStrBody fuel (escapeList l ++ cQuote :: rest) = some (l, rest) := by
  intro l
  induction l with
  | nil =>
    intro fuel rest hf
    obtain ⟨f, rfl⟩ : ∃ f, fuel = f + 1 := ⟨fuel - 1, by omega⟩
    simp +decide [escapeList, parseStrBody]
  | cons c cs ih =>
    intro fuel rest hf
    obtain ⟨f, rfl⟩ : ∃ f, fuel = f + 1 := ⟨fuel - 1, by omega⟩
    have hih : parseStrBody f (escapeList cs ++ cQuote :: rest) = some (cs, rest) := by
      apply ih
      simp at hf
      omega
    rw [escapeList, List.append_assoc]
    by_cases h1 : c = cQuote
    · subst h1
      simp +decide [escapeChar, parseStrBody, parseEscape, consStr, hih]
    by_cases h2 : c = cBackslash
    · subst h2
      simp +decide [escapeChar, parseStrBody, parseEscape, consStr, hih]
    by_cases h3 : c.toNat = 8
    · have hc : c = Char.ofNat 8 := by rw [← h3, Char.ofNat_toNat]
      subst hc
      simp +decide [escapeChar, parseStrBody, parseEscape, consStr, hih]
    by_cases h4 : c.toNat = 9
    · have hc : c = Char.ofNat 9 := by rw [← h4, Char.ofNat_toNat]
      subst hc
      simp +decide [escapeChar, parseStrBody, parseEscape, consStr, hih]
    by_cases h5 : c.toNat = 10
    · have hc : c = Char.ofNat 10 := by rw [← h5, Char.ofNat_toNat]
      subst hc
      simp +decide [escapeChar, parseStrBody, parseEscape, consStr, hih]
    by_cases h6 : c.toNat = 12
    · have hc : c = Char.ofNat 12 := by rw [← h6, Char.ofNat_toNat]
      subst hc
      simp +decide [escapeChar, parseStrBody, parseEscape, consStr, hih]
    by_cases h7 : c.toNat = 13
    · have hc : c = Char.ofNat 13 := by rw [← h7, Char.ofNat_toNat]
      subst hc
      simp +decide [escapeChar, parseStrBody, parseEscape, consStr, hih]
    by_cases h8 : c.toNat < 32
    · rw [escapeChar]
      rw [if_neg h1, if_neg h2, if_neg h3, if_neg h4, if_neg h5, if_neg h6, if_neg h7,
          if_pos h8]
      have hu : parseUEscape (hex4 c.toNat ++ (escapeList cs ++ cQuote :: rest)) =
          some (Char.ofNat c.toNat, escapeList cs ++ cQuote :: rest) :=
        parseUEscape_bmp _ (by omega) (by omega) (by omega) _
      simp +decide [parseStrBody, parseEscape, hu, consStr, hih, Char.ofNat_toNat]
    by_cases h9 : c.toNat ≤ 126
    · rw [escapeChar]
      rw [if_neg h1, if_neg h2, if_neg h3, if_neg h4, if_neg h5, if_neg h6, if_neg h7,
          if_neg h8, if_pos h9]
      rw [List.cons_append, List.nil_append, parseStrBody]
      rw [if_neg h1, if_neg h2, if_neg (by omega), hih]
      rw [consStr_some]
    by_cases h10 : c.toNat < 65536
    · rw [escapeChar]
      rw [if_neg h1, if_neg h2, if_neg h3, if_neg h4, if_neg h5, if_neg h6, if_neg h7,
          if_neg h8, if_neg h9, if_pos h10]
      have hval := char_isValid c
      have hu : parseUEscape (hex4 c.toNat ++ (escapeList cs ++ cQuote :: rest)) =
          some (Char.ofNat c.toNat, escapeList cs ++ cQuote :: rest) :=
        parseUEscape_bmp _ (by omega) (by omega) (by omega) _
      simp +decide [parseStrBody, parseEscape, hu, consStr, hih, Char.ofNat_toNat]
    · rw [escapeChar]
      rw [if_neg h1, if_neg h2, if_neg h3, if_neg h4, if_neg h5, if_neg h6, if_neg h7,
          if_neg h8, if_neg h9, if_neg h10]
      have hlt := char_toNat_lt c
      have e1 : parseUEscape
          (hex4 (55296 + (c.toNat - 65536) / 1024) ++
            (cBackslash :: 'u' :: (hex4 (56320 + (c.toNat - 65536) % 1024) ++
              (escapeList cs ++ cQuote :: rest)))) =
          parseUEscapeCont (55296 + (c.toNat - 65536) / 1024)
            (cBackslash :: 'u' :: (hex4 (56320 + (c.toNat - 65536) % 1024) ++
              (escapeList cs ++ cQuote :: rest))) :=
        parseUEscape_cont _ (by omega) _
      have e2 : parseUEscapeCont (55296 + (c.toNat - 65536) / 1024)
          (cBackslash :: 'u' :: (hex4 (56320 + (c.toNat - 65536) % 1024) ++
            (escapeList cs ++ cQuote :: rest))) =
          parseLowSurrogate (55296 + (c.toNat - 65536) / 1024)
            (hex4 (56320 + (c.toNat - 65536) % 1024) ++
              (escapeList cs ++ cQuote :: rest)) := by
        rw [parseUEscapeCont, if_pos ⟨by omega, by omega⟩, pairTail,
            if_pos ⟨rfl, rfl⟩]
      have e3 : parseLowSurrogate (55296 + (c.toNat - 65536) / 1024)
          (hex4 (56320 + (c.toNat - 65536) % 1024) ++
            (escapeList cs ++ cQuote :: rest)) =
          lowCombine (55296 + (c.toNat - 65536) / 1024) (56320 + (c.toNat - 65536) % 1024)
            (escapeList cs ++ cQuote :: rest) := by
        rw [parseLowSurrogate, parseHex4Q_hex4 _ (by omega) _, optBindSome]
      have e4 : lowCombine (55296 + (c.toNat - 65536) / 1024) (56320 + (c.toNat - 65536) % 1024)
          (escapeList cs ++ cQuote :: rest) = some (c, escapeList cs ++ cQuote :: rest) := by
        rw [lowCombine, if_pos ⟨by omega, by omega⟩]
        have hcomb : 65536 + (55296 + (c.toNat - 65536) / 1024 - 55296) * 1024 +
            (56320 + (c.toNat - 65536) % 1024 - 56320) = c.toNat := by
          omega
        rw [hcomb, Char.ofNat_toNat]
      have hu := ((e1.trans e2).trans e3).trans e4
      simp only [List.cons_append, List.append_assoc] at hu ⊢
      rw [parseStrBody]
      rw [if_neg (by decide), if_pos rfl]
      rw [parseEscape]
      rw [if_neg (by decide), if_neg (by decide), if_neg (by decide), if_neg (by decide),
          if_neg (by decide), if_neg (by decide), if_neg (by decide), if_neg (by decide),
          if_pos rfl]
      rw [hu, optBindSome]
      rw [hih]
      rw [consStr_some]

theorem numStop_numTailOk {rest : List Char} (h : numStop rest = true) :
    numTailOk rest = true := by
  cases rest with
  | nil => rfl
  | cons c t =>
    simp [numStop] at h
    obtain ⟨⟨⟨_, h1⟩, h2⟩, h3⟩ := h
    simp [numTailOk, h1, h2, h3]

theorem numStop_head_not_digit {c : Char} {t : List Char}
    (h : numStop (c :: t) = true) : c.isDigit = false := by
  simp [numStop] at h
  exact h.1.1.1

theorem parseNatPart_natChars (n : Nat) (rest : List Char) (h : numStop rest = true) :
    parseNatPart (natChars n ++ rest) = some (n, rest) := by
  obtain ⟨hdig, ⟨c, t, heq⟩, hval, hpos⟩ := natChars_spec n
  have hB : rest = [] ∨ ∃ b bt, rest = b :: bt ∧ Char.isDigit b = false := by
    cases rest with
    | nil => exact Or.inl rfl
    | cons b bt => exact Or.inr ⟨b, bt, rfl, numStop_head_not_digit h⟩
  have htake := takeWhile_append_of_all (natChars n) rest hdig hB
  by_cases h0 : n = 0
  · subst h0
    have : natChars 0 = ['0'] := rfl
    rw [this, List.cons_append, List.nil_append, parseNatPart, if_pos rfl]
  · obtain ⟨c2, t2, heq2, hc2⟩ := hpos (by omega)
    rw [heq2] at htake ⊢
    rw [List.cons_append, parseNatPart]
    have hcdig : c2.isDigit = true := by
      apply hdig
      rw [heq2]
      simp
    have hcne : ¬ c2 = '0' := hc2
    rw [if_neg hcne, if_pos hcdig]
    rw [← List.cons_append, htake.1, htake.2]
    rw [← heq2, hval]

theorem isDigit_ne_minus {c : Char} (h : c.isDigit = true) : ¬ c = '-' := by
  intro hc
  subst hc
  simp [Char.isDigit] at h

theorem parseNumber_intChars (i : Int) (rest : List Char) (h : numStop rest = true) :
    parseNumber (intChars i ++ rest) = some (.num i, rest) := by
  cases i with
  | ofNat n =>
    obtain ⟨hdig, ⟨c, t, heq⟩, hval, hpos⟩ := natChars_spec n
    rw [intChars, heq, List.cons_append, parseNumber]
    have hcdig : c.isDigit = true := by
      apply hdig
      rw [heq]
      simp
    rw [if_neg (isDigit_ne_minus hcdig)]
    rw [← List.cons_append, ← heq, parseNatPart_natChars n rest h, optBindSome]
    show numFinish false n rest = some (.num (n : Int), rest)
    rw [numFinish, numStop_numTailOk h]
    rfl
  | negSucc m =>
    rw [intChars, List.cons_append, parseNumber, if_pos rfl,
        parseNatPart_natChars (m + 1) rest h, optBindSome]
    show numFinish true (m + 1) rest = some (.num (Int.negSucc m), rest)
    rw [numFinish, numStop_numTailOk h]
    have hns : -((m + 1 : Nat) : Int) = Int.negSucc m := by
      rw [Int.negSucc_eq]
      push_cast
      ring
    rw [if_pos rfl]
    rw [show (if true then -((m + 1 : Nat) : Int) else ((m + 1 : Nat) : Int)) =
        -((m + 1 : Nat) : Int) from rfl, hns]

theorem isDigit_toNat_bounds {c : Char} (h : c.isDigit = true) :
    48 ≤ c.toNat ∧ c.toNat ≤ 57 := by
  simp [Char.isDigit] at h
  exact ⟨h.1, h.2⟩

theorem printJson_head (j : Json) :
    ∃ c t, printJson j = c :: t ∧ goodHead c := by
  cases j with
  | null => exact ⟨'n', _, rfl, Or.inl rfl⟩
  | bool b =>
    cases b with
    | true => exact ⟨'t', _, rfl, Or.inr (Or.inl rfl)⟩
    | false => exact ⟨'f', _, rfl, Or.inr (Or.inr (Or.inl rfl))⟩
  | num i =>
    cases i with
    | ofNat n =>
      obtain ⟨hdig, ⟨c, t, heq⟩, _, _⟩ := natChars_spec n
      refine ⟨c, t, ?_, ?_⟩
      · rw [printJson, intChars, heq]
      · exact Or.inr (Or.inr (Or.inr (Or.inr (Or.inr (Or.inr (Or.inr (by
          apply hdig; rw [heq]; simp)))))))
    | negSucc m =>
      exact ⟨'-', _, by rw [printJson, intChars],
        Or.inr (Or.inr (Or.inr (Or.inr (Or.inr (Or.inr (Or.inl rfl))))))⟩
  | str s => exact ⟨cQuote, _, rfl, Or.inr (Or.inr (Or.inr (Or.inl rfl)))⟩
  | arr xs =>
    cases xs with
    | nil => exact ⟨'[', _, rfl, Or.inr (Or.inr (Or.inr (Or.inr (Or.inl rfl))))⟩
    | cons h t => exact ⟨'[', _, rfl, Or.inr (Or.inr (Or.inr (Or.inr (Or.inl rfl))))⟩
  | obj ms =>
    cases ms with
    | nil => exact ⟨'{', _, rfl, Or.inr (Or.inr (Or.inr (Or.inr (Or.inr (Or.inl rfl)))))⟩
    | cons k v t =>
      exact ⟨'{', _, rfl, Or.inr (Or.inr (Or.inr (Or.inr (Or.inr (Or.inl rfl)))))⟩

theorem goodHead_not_ws {c : Char} (h : goodHead c) : isWsChar c = false := by
  rcases h with rfl | rfl | rfl | rfl | rfl | rfl | rfl | hd
  · decide
  · decide
  · decide
  · decide
  · decide
  · decide
  · decide
  · have hb := isDigit_toNat_bounds hd
    simp only [isWsChar]
    have h1 : ¬ c = ' ' := by
      intro hc; subst hc; exact absurd hb (by decide)
    have h2 : ¬ c = '\t' := by
      intro hc; subst hc; exact absurd hb (by decide)
    have h3 : ¬ c = '\n' := by
      intro hc; subst hc; exact absurd hb (by decide)
    have h4 : ¬ c = '\r' := by
      intro hc; subst hc; exact absurd hb (by decide)
    simp [h1, h2, h3, h4]

theorem goodHead_skipWs {c : Char} (h : goodHead c) (t : List Char) :
    skipWs (c :: t) = c :: t := by
  rw [skipWs, goodHead_not_ws h]
  rfl

theorem goodHead_ne {c : Char} (h : goodHead c) :
    c ≠ ']' ∧ c ≠ '}' ∧ c ≠ ',' ∧ c ≠ ':' := by
  rcases h with rfl | rfl | rfl | rfl | rfl | rfl | rfl | hd
  · exact ⟨by decide, by decide, by decide, by decide⟩
  · exact ⟨by decide, by decide, by decide, by decide⟩
  · exact ⟨by decide, by decide, by decide, by decide⟩
  · exact ⟨by decide, by decide, by decide, by decide⟩
  · exact ⟨by decide, by decide, by decide, by decide⟩
  · exact ⟨by decide, by decide, by decide, by decide⟩
  · exact ⟨by decide, by decide, by decide, by decide⟩
  · have hb := isDigit_toNat_bounds hd
    refine ⟨?_, ?_, ?_, ?_⟩ <;>
      (intro hc; subst hc; exact absurd hb (by decide))

/-- The printed form of any value begins with a character that the number
grammar cannot absorb, so a number followed by printed list separators or a
closing bracket always stops in the right place. -/
theorem numStop_sep (c : Char) (t : List Char)
    (h : c = ',' ∨ c = ']' ∨ c = '}') : numStop (c :: t) = true := by
  rcases h with rfl | rfl | rfl <;> simp +decide [numStop]

theorem escapeChar_length_pos (c : Char) : 1 ≤ (escapeChar c).length := by
  unfold escapeChar
  split_ifs <;> simp [hex4]

theorem escapeList_length (l : List Char) : l.length ≤ (escapeList l).length := by
  induction l with
  | nil => simp [escapeList]
  | cons c cs ih =>
    rw [escapeList, List.length_append, List.length_cons]
    have := escapeChar_length_pos c
    omega

theorem string_mk_data (s : String) : String.mk s.data = s := rfl

theorem parseValue_null (f : Nat) (r : List Char) :
    parseValue (f + 1) ('n' :: 'u' :: 'l' :: 'l' :: r) = some (.null, r) := by
  rw [parseValue, if_pos rfl]
  rfl

theorem parseValue_true (f : Nat) (r : List Char) :
    parseValue (f + 1) ('t' :: 'r' :: 'u' :: 'e' :: r) = some (.bool true, r) := by
  rw [parseValue, if_neg (by decide), if_pos rfl]
  rfl

theorem parseValue_false (f : Nat) (r : List Char) :
    parseValue (f + 1) ('f' :: 'a' :: 'l' :: 's' :: 'e' :: r) = some (.bool false, r) := by
  rw [parseValue, if_neg (by decide), if_neg (by decide), if_pos rfl]
  rfl

theorem parseValue_str_head (f : Nat) (t : List Char) :
    parseValue (f + 1) (cQuote :: t) =
      (parseStrBody (t.length + 1) t).bind fun p => some (.str (String.mk p.1), p.2) := by
  rw [parseValue, if_neg (by decide), if_neg (by decide), if_neg (by decide), if_pos rfl]

theorem parseValue_arr_head (f : Nat) (t : List Char) :
    parseValue (f + 1) ('[' :: t) = parseArrBody f (skipWs t) := by
  rw [parseValue, if_neg (by decide), if_neg (by decide), if_neg (by decide),
      if_neg (by decide), if_pos rfl]

theorem parseValue_obj_head (f : Nat) (t : List Char) :
    parseValue (f + 1) ('{' :: t) = parseObjBody f (skipWs t) := by
  rw [parseValue, if_neg (by decide), if_neg (by decide), if_neg (by decide),
      if_neg (by decide), if_neg (by decide), if_pos rfl]

theorem parseValue_num_head (f : Nat) (c : Char) (t : List Char)
    (h : c = '-' ∨ c.isDigit = true) :
    parseValue (f + 1) (c :: t) = parseNumber (c :: t) := by
  rcases h with rfl | hd
  · rw [parseValue, if_neg (by decide), if_neg (by decide), if_neg (by decide),
        if_neg (by decide), if_neg (by decide), if_neg (by decide)]
  · have hb := isDigit_toNat_bounds hd
    have h1 : ¬ c = 'n' := by intro hc; subst hc; exact absurd hb (by decide)
    have h2 : ¬ c = 't' := by intro hc; subst hc; exact absurd hb (by decide)
    have h3 : ¬ c = 'f' := by intro hc; subst hc; exact absurd hb (by decide)
    have h4 : ¬ c = cQuote := by intro hc; subst hc; exact absurd hb (by decide)
    have h5 : ¬ c = '[' := by intro hc; subst hc; exact absurd hb (by decide)
    have h6 : ¬ c = '{' := by intro hc; subst hc; exact absurd hb (by decide)
    rw [parseValue, if_neg h1, if_neg h2, if_neg h3, if_neg h4, if_neg h5, if_neg h6]

theorem skipWs_not_ws {c : Char} (h : isWsChar c = false) (t : List Char) :
    skipWs (c :: t) = c :: t := by
  rw [skipWs, h]
  rfl

theorem skipWs_space (t : List Char) : skipWs (' ' :: t) = skipWs t := by
  rw [skipWs, if_pos (by decide)]

theorem parseArrBody_cons {c : Char} (f : Nat) (x : List Char) (hne : ¬ c = ']') :
    parseArrBody (f + 1) (c :: x) =
      (parseElems f (c :: x)).bind fun p => some (.arr p.1, p.2) := by
  rw [parseArrBody]
  intro r hr
  injection hr with h1 _
  exact hne h1

theorem parseObjBody_cons {c : Char} (f : Nat) (x : List Char) (hne : ¬ c = '}') :
    parseObjBody (f + 1) (c :: x) =
      (parseMems f (c :: x)).bind fun p => some (.obj p.1, p.2) := by
  rw [parseObjBody]
  intro r hr
  injection hr with h1 _
  exact hne h1

theorem jsizeV_pos (j : Json) : 1 ≤ jsizeV j := by
  cases j <;> simp [jsizeV] <;> omega

theorem parse_print_all : ∀ fuel : Nat,
    (∀ (j : Json) (rest : List Char), jsizeV j ≤ fuel → numStop rest = true →
      parseValue fuel (printJson j ++ rest) = some (j, rest)) ∧
    (∀ (h : Json) (t : JArr) (rest : List Char), jsizeA (JArr.cons h t) ≤ fuel →
      parseElems fuel (printJson h ++ (printArrTail t ++ (']' :: rest))) =
        some (JArr.cons h t, rest)) ∧
    (∀ (k : String) (v : Json) (t : JMems) (rest : List Char),
      jsizeM (JMems.cons k v t) ≤ fuel →
      parseMems fuel
        (cQuote :: (escapeList k.data ++ (cQuote :: ':' :: ' ' ::
          (printJson v ++ (printObjTail t ++ ('}' :: rest)))))) =
        some (JMems.cons k v t, rest)) := by
  intro fuel
  induction fuel using Nat.strong_induction_on with
  | _ fuel ih =>
  refine ⟨?_, ?_, ?_⟩
  · -- values
    intro j rest hsize hstop
    obtain ⟨f, rfl⟩ : ∃ f, fuel = f + 1 :=
      ⟨fuel - 1, by have := jsizeV_pos j; omega⟩
    cases j with
    | null =>
      rw [printJson]
      simp only [List.cons_append, List.nil_append]
      exact parseValue_null f rest
    | bool b =>
      cases b with
      | true =>
        rw [printJson]
        simp only [List.cons_append, List.nil_append]
        exact parseValue_true f rest
      | false =>
        rw [printJson]
        simp only [List.cons_append, List.nil_append]
        exact parseValue_false f rest
    | num i =>
      rw [printJson]
      obtain ⟨c, t, heq, hgood⟩ :
          ∃ c t, intChars i = c :: t ∧ (c = '-' ∨ c.isDigit = true) := by
        cases i with
        | ofNat n =>
          obtain ⟨hdig, ⟨c, t, heq⟩, _, _⟩ := natChars_spec n
          exact ⟨c, t, by rw [intChars, heq],
            Or.inr (by apply hdig; rw [heq]; simp)⟩
        | negSucc m => exact ⟨'-', _, by rw [intChars], Or.inl rfl⟩
      rw [heq, List.cons_append, parseValue_num_head f c _ hgood,
          ← List.cons_append, ← heq]
      exact parseNumber_intChars i rest hstop
    | str s =>
      rw [printJson]
      simp only [List.cons_append, List.append_assoc, List.nil_append]
      rw [parseValue_str_head]
      have hlen : s.data.length < (escapeList s.data ++ cQuote :: rest).length + 1 := by
        have := escapeList_length s.data
        simp only [List.length_append, List.length_cons]
        omega
      rw [parseStrBody_escapeList s.data _ rest hlen, optBindSome, string_mk_data]
    | arr xs =>
      cases xs with
      | nil =>
        rw [printJson]
        simp only [List.cons_append, List.nil_append]
        rw [parseValue_arr_head, skipWs_not_ws (by decide)]
        obtain ⟨f2, rfl⟩ : ∃ f2, f = f2 + 1 :=
          ⟨f - 1, by simp [jsizeV, jsizeA] at hsize; omega⟩
        rw [parseArrBody]
      | cons h t =>
        rw [printJson]
        simp only [List.cons_append, List.append_assoc, List.nil_append]
        rw [parseValue_arr_head]
        obtain ⟨c, t', hpr, hgood⟩ := printJson_head h
        rw [hpr, List.cons_append, goodHead_skipWs hgood,
            ← List.cons_append, ← hpr]
        obtain ⟨f2, rfl⟩ : ∃ f2, f = f2 + 1 := by
          refine ⟨f - 1, ?_⟩
          simp only [jsizeV, jsizeA] at hsize
          have := jsizeV_pos h
          omega
        rw [hpr, List.cons_append,
            parseArrBody_cons f2 _ ((goodHead_ne hgood).1),
            ← List.cons_append, ← hpr]
        have hA := (ih f2 (by omega)).2.1 h t rest (by
          simp only [jsizeV] at hsize
          omega)
        rw [hA, optBindSome]
    | obj ms =>
      cases ms with
      | nil =>
        rw [printJson]
        simp only [List.cons_append, List.nil_append]
        rw [parseValue_obj_head, skipWs_not_ws (by decide)]
        obtain ⟨f2, rfl⟩ : ∃ f2, f = f2 + 1 :=
          ⟨f - 1, by simp [jsizeV, jsizeM] at hsize; omega⟩
        rw [parseObjBody]
      | cons k v t =>
        rw [printJson]
        simp only [List.cons_append, List.append_assoc, List.nil_append]
        rw [parseValue_obj_head, skipWs_not_ws (by decide)]
        obtain ⟨f2, rfl⟩ : ∃ f2, f = f2 + 1 := by
          refine ⟨f - 1, ?_⟩
          simp only [jsizeV, jsizeM] at hsize
          omega
        rw [parseObjBody_cons f2 _ (by decide)]
        have hM := (ih f2 (by omega)).2.2 k v t rest (by
          simp only [jsizeV] at hsize
          omega)
        rw [hM, optBindSome]
  · -- array element lists
    intro h t rest hsize
    obtain ⟨g, rfl⟩ : ∃ g, fuel = g + 1 :=
      ⟨fuel - 1, by simp only [jsizeA] at hsize; omega⟩
    rw [parseElems]
    have hstop2 : numStop (printArrTail t ++ (']' :: rest)) = true := by
      cases t with
      | nil =>
        rw [printArrTail, List.nil_append]
        exact numStop_sep _ _ (Or.inr (Or.inl rfl))
      | cons h2 t2 =>
        rw [printArrTail]
        simp only [List.cons_append]
        exact numStop_sep _ _ (Or.inl rfl)
    have hv := (ih g (by omega)).1 h (printArrTail t ++ (']' :: rest)) (by
      simp only [jsizeA] at hsize
      omega) hstop2
    rw [hv, optBindSome]
    cases t with
    | nil =>
      rw [printArrTail, List.nil_append, skipWs_not_ws (by decide)]
      obtain ⟨g2, rfl⟩ : ∃ g2, g = g2 + 1 := by
        refine ⟨g - 1, ?_⟩
        simp only [jsizeA] at hsize
        have := jsizeV_pos h
        omega
      rw [parseElemsTail]
    | cons h2 t2 =>
      rw [printArrTail]
      simp only [List.cons_append, List.append_assoc]
      rw [skipWs_not_ws (by decide)]
      obtain ⟨g2, rfl⟩ : ∃ g2, g = g2 + 1 := by
        refine ⟨g - 1, ?_⟩
        simp only [jsizeA] at hsize
        have := jsizeV_pos h
        omega
      rw [parseElemsTail, skipWs_space]
      obtain ⟨c2, t2', hpr2, hgood2⟩ := printJson_head h2
      rw [hpr2, List.cons_append, goodHead_skipWs hgood2,
          ← List.cons_append, ← hpr2]
      have hA2 := (ih g2 (by omega)).2.1 h2 t2 rest (by
        simp only [jsizeA] at hsize ⊢
        have := jsizeV_pos h
        omega)
      rw [hA2, optBindSome]
  · -- object member lists
    intro k v t rest hsize
    obtain ⟨g, rfl⟩ : ∃ g, fuel = g + 1 :=
      ⟨fuel - 1, by simp only [jsizeM] at hsize; omega⟩
    rw [parseMems, if_pos rfl]
    have hlen : k.data.length <
        (escapeList k.data ++ (cQuote :: ':' :: ' ' ::
          (printJson v ++ (printObjTail t ++ ('}' :: rest))))).length + 1 := by
      have := escapeList_length k.data
      simp only [List.length_append, List.length_cons]
      omega
    rw [show escapeList k.data ++ (cQuote :: ':' :: ' ' ::
          (printJson v ++ (printObjTail t ++ ('}' :: rest)))) =
        escapeList k.data ++ cQuote :: (':' :: ' ' ::
          (printJson v ++ (printObjTail t ++ ('}' :: rest)))) from rfl]
    rw [parseStrBody_escapeList k.data _ _ hlen, optBindSome, string_mk_data,
        skipWs_not_ws (by decide)]
    obtain ⟨g2, rfl⟩ : ∃ g2, g = g2 + 1 := by
      refine ⟨g - 1, ?_⟩
      simp only [jsizeM] at hsize
      omega
    rw [parseMemsColon, skipWs_space]
    obtain ⟨c3, t3, hpr3, hgood3⟩ := printJson_head v
    rw [hpr3, List.cons_append, goodHead_skipWs hgood3,
        ← List.cons_append, ← hpr3]
    have hstop3 : numStop (printObjTail t ++ ('}' :: rest)) = true := by
      cases t with
      | nil =>
        rw [printObjTail, List.nil_append]
        exact numStop_sep _ _ (Or.inr (Or.inr rfl))
      | cons k2 v2 t2 =>
        rw [printObjTail]
        simp only [List.cons_append]
        exact numStop_sep _ _ (Or.inl rfl)
    have hv3 := (ih g2 (by omega)).1 v (printObjTail t ++ ('}' :: rest)) (by
      simp only [jsizeM] at hsize
      omega) hstop3
    rw [hv3, optBindSome]
    cases t with
    | nil =>
      rw [printObjTail, List.nil_append, skipWs_not_ws (by decide)]
      obtain ⟨g3, rfl⟩ : ∃ g3, g2 = g3 + 1 := by
        refine ⟨g2 - 1, ?_⟩
        simp only [jsizeM] at hsize
        have := jsizeV_pos v
        omega
      rw [parseMemsTail]
    | cons k2 v2 t2 =>
      rw [printObjTail]
      simp only [List.cons_append, List.append_assoc]
      rw [skipWs_not_ws (by decide)]
      obtain ⟨g3, rfl⟩ : ∃ g3, g2 = g3 + 1 := by
        refine ⟨g2 - 1, ?_⟩
        simp only [jsizeM] at hsize
        have := jsizeV_pos v
        omega
      rw [parseMemsTail, skipWs_space, skipWs_not_ws (by decide)]
      have hM2 := (ih g3 (by omega)).2.2 k2 v2 t2 rest (by
        simp only [jsizeM] at hsize ⊢
        have := jsizeV_pos v
        omega)
      rw [hM2, optBindSome]

theorem printJson_nonempty (j : Json) : 1 ≤ (printJson j).length := by
  obtain ⟨c, t, hpr, _⟩ := printJson_head j
  rw [hpr]
  simp

theorem jsize_le_len : ∀ n : Nat,
    (∀ j : Json, jsizeV j ≤ n → jsizeV j ≤ 3 * (printJson j).length) ∧
    (∀ xs : JArr, jsizeA xs ≤ n → jsizeA xs ≤ 3 * (printArrTail xs).length) ∧
    (∀ ms : JMems, jsizeM ms ≤ n → jsizeM ms ≤ 3 * (printObjTail ms).length) := by
  intro n
  induction n using Nat.strong_induction_on with
  | _ n ih =>
  refine ⟨?_, ?_, ?_⟩
  · intro j hle
    cases j with
    | null => simp [jsizeV, printJson]
    | bool b => cases b <;> simp [jsizeV, printJson]
    | num i =>
      have h1 : 1 ≤ (printJson (Json.num i)).length := printJson_nonempty _
      simp only [jsizeV]
      omega
    | str s =>
      simp only [jsizeV, printJson, List.length_cons, List.length_append]
      omega
    | arr xs =>
      cases xs with
      | nil => simp [jsizeV, jsizeA, printJson]
      | cons h t =>
        have hn : 1 ≤ n := by
          have := jsizeV_pos (Json.arr (JArr.cons h t))
          omega
        have hV := ((ih (n - 1) (by omega)).1 h (by
          simp only [jsizeV, jsizeA] at hle ⊢
          omega))
        have hA := ((ih (n - 1) (by omega)).2.1 t (by
          simp only [jsizeV, jsizeA] at hle ⊢
          have := jsizeV_pos h
          omega))
        simp only [jsizeV, jsizeA, printJson, List.length_cons, List.length_append] at *
        omega
    | obj ms =>
      cases ms with
      | nil => simp [jsizeV, jsizeM, printJson]
      | cons k v t =>
        have hn : 1 ≤ n := by
          have := jsizeV_pos (Json.obj (JMems.cons k v t))
          omega
        have hV := ((ih (n - 1) (by omega)).1 v (by
          simp only [jsizeV, jsizeM] at hle ⊢
          omega))
        have hM := ((ih (n - 1) (by omega)).2.2 t (by
          simp only [jsizeV, jsizeM] at hle ⊢
          have := jsizeV_pos v
          omega))
        simp only [jsizeV, jsizeM, printJson, List.length_cons, List.length_append] at *
        omega
  · intro xs hle
    cases xs with
    | nil => simp [jsizeA, printArrTail]
    | cons h t =>
      have hV := ((ih (n - 1) (by
          have := jsizeV_pos h
          simp only [jsizeA] at hle
          omega)).1 h (by
        simp only [jsizeA] at hle ⊢
        omega))
      have hA := ((ih (n - 1) (by
          have := jsizeV_pos h
          simp only [jsizeA] at hle
          omega)).2.1 t (by
        simp only [jsizeA] at hle ⊢
        have := jsizeV_pos h
        omega))
      simp only [jsizeA, printArrTail, List.length_cons, List.length_append] at *
      omega
  · intro ms hle
    cases ms with
    | nil => simp [jsizeM, printObjTail]
    | cons k v t =>
      have hV := ((ih (n - 1) (by
          have := jsizeV_pos v
          simp only [jsizeM] at hle
          omega)).1 v (by
        simp only [jsizeM] at hle ⊢
        omega))
      have hM := ((ih (n - 1) (by
          have := jsizeV_pos v
          simp only [jsizeM] at hle
          omega)).2.2 t (by
        simp only [jsizeM] at hle ⊢
        have := jsizeV_pos v
        omega))
      simp only [jsizeM, printObjTail, List.length_cons, List.length_append] at *
      omega

/-- json.loads recovers exactly the value json.dumps serialized: the
JSON half of the gateway storage round trip. -/
theorem loads_dumps (j : Json) : loads (dumps j) = some j := by
  obtain ⟨c, t, hpr, hgood⟩ := printJson_head j
  have hdata : (dumps j).data = printJson j := rfl
  rw [loads]
  simp only [hdata]
  rw [hpr, goodHead_skipWs hgood, ← hpr]
  have hsz : jsizeV j ≤ 3 * (printJson j).length + 1 := by
    have := (jsize_le_len (jsizeV j)).1 j le_rfl
    omega
  have hv := (parse_print_all (3 * (printJson j).length + 1)).1 j [] hsz rfl
  rw [List.append_nil] at hv
  rw [hv]
  rfl

theorem charSextet_sextetChar : ∀ s < 64, charSextet (sextetChar s) = some s := by
  decide

theorem sextetChar_ne_eq : ∀ s < 64, sextetChar s ≠ '=' := by
  decide

theorem encGroups_lt : ∀ bs : List Nat, (∀ b ∈ bs, b < 256) → ∀ g ∈ encGroups bs, g < 64 := by
  intro bs
  induction bs using encGroups.induct with
  | case1 => intro _ g hg; simp [encGroups] at hg
  | case2 a =>
    intro hb g hg
    have ha := hb a (by simp)
    simp [encGroups] at hg
    rcases hg with rfl | rfl <;> omega
  | case3 a b =>
    intro hb g hg
    have ha := hb a (by simp)
    have hbb := hb b (by simp)
    simp [encGroups] at hg
    rcases hg with rfl | rfl | rfl <;> omega
  | case4 a b c rest ih =>
    intro hb g hg
    have ha := hb a (by simp)
    have hbb := hb b (by simp)
    have hc := hb c (by simp)
    simp only [encGroups, List.mem_cons] at hg
    rcases hg with rfl | rfl | rfl | rfl | hg
    · omega
    · omega
    · omega
    · omega
    · exact ih (fun x hx => hb x (by simp [hx])) g hg

theorem decGroups_encGroups :
    ∀ bs : List Nat, (∀ b ∈ bs, b < 256) → decGroups (encGroups bs) = some bs := by
  intro bs
  induction bs using encGroups.induct with
  | case1 => intro _; rfl
  | case2 a =>
    intro hb
    have ha := hb a (by simp)
    rw [encGroups, decGroups]
    have h1 : a / 4 * 4 + a % 4 * 16 / 16 = a := by omega
    rw [h1]
  | case3 a b =>
    intro hb
    have ha := hb a (by simp)
    have hbb := hb b (by simp)
    rw [encGroups, decGroups]
    have h1 : a / 4 * 4 + (a % 4 * 16 + b / 16) / 16 = a := by omega
    have h2 : (a % 4 * 16 + b / 16) % 16 * 16 + b % 16 * 4 / 4 = b := by omega
    rw [h1, h2]
  | case4 a b c rest ih =>
    intro hb
    have ha := hb a (by simp)
    have hbb := hb b (by simp)
    have hc := hb c (by simp)
    have hrest := ih (fun x hx => hb x (by simp [hx]))
    have h1 : a / 4 * 4 + (a % 4 * 16 + b / 16) / 16 = a := by omega
    have h2 : (a % 4 * 16 + b / 16) % 16 * 16 + (b % 16 * 4 + c / 64) / 4 = b := by omega
    have h3 : (b % 16 * 4 + c / 64) % 4 * 64 + c % 64 = c := by omega
    cases rest with
    | nil =>
      simp only [encGroups, decGroups, Option.map_some]
      simp [h1, h2, h3]
    | cons d rest2 =>
      rw [encGroups]
      have hne : encGroups (d :: rest2) ≠ [] := by
        cases rest2 with
        | nil => simp [encGroups]
        | cons e rest3 =>
          cases rest3 <;> simp [encGroups]
      obtain ⟨g0, gs, hgs⟩ : ∃ g0 gs, encGroups (d :: rest2) = g0 :: gs := by
        cases hegs : encGroups (d :: rest2) with
        | nil => exact absurd hegs hne
        | cons g0 gs => exact ⟨g0, gs, rfl⟩
      rw [hgs, decGroups, ← hgs, hrest]
      simp [h1, h2, h3]

theorem pyStripEq_b64encode (bs : List Nat) (h : ∀ b ∈ bs, b < 256) :
    pyStripEq (b64encode bs) = (encGroups bs).map sextetChar := by
  rw [b64encode, pyStripEq, List.filter_append]
  have h1 : ((encGroups bs).map sextetChar).filter (fun c => !(c = '=')) =
      (encGroups bs).map sextetChar := by
    rw [List.filter_eq_self]
    intro c hc
    rw [List.mem_map] at hc
    obtain ⟨g, hg, rfl⟩ := hc
    have := sextetChar_ne_eq g (encGroups_lt bs h g hg)
    simp [this]
  have h2 : (b64Pad bs.length).filter (fun c => !(c = '=')) = [] := by
    rw [b64Pad]
    split_ifs <;> rfl
  rw [h1, h2, List.append_nil]

theorem mapM_charSextet_map (gs : List Nat) (h : ∀ g ∈ gs, g < 64) :
    (gs.map sextetChar).mapM charSextet = some gs := by
  induction gs with
  | nil => rfl
  | cons g gs ih =>
    rw [List.map_cons, List.mapM_cons, charSextet_sextetChar g (h g (by simp)),
        ih (fun x hx => h x (by simp [hx]))]
    rfl

/-- The stored form of a CSV payload (urlsafe base64 with padding stripped)
decodes back to exactly the bytes that were encoded. -/
theorem b64_roundtrip (bs : List Nat) (h : ∀ b ∈ bs, b < 256) :
    b64decodeNoPad (pyStripEq (b64encode bs)) = some bs := by
  rw [pyStripEq_b64encode bs h, b64decodeNoPad,
      mapM_charSextet_map _ (encGroups_lt bs h), optBindSome,
      decGroups_encGroups bs h]

theorem utf8Char_lt (c : Char) : ∀ b ∈ utf8Char c, b < 256 := by
  intro b hb
  have hlt := char_toNat_lt c
  rw [utf8Char] at hb
  split_ifs at hb <;> simp at hb <;> omega

theorem utf8Bytes_lt (s : String) : ∀ b ∈ utf8Bytes s, b < 256 := by
  rw [utf8Bytes]
  induction s.data with
  | nil => intro b hb; simp at hb
  | cons c cs ih =>
    intro b hb
    simp only [List.foldr_cons, List.mem_append] at hb
    rcases hb with hb | hb
    · exact utf8Char_lt c b hb
    · exact ih b hb

/-! ## C4 machinery: the storage round trip -/

/-- C4: every value the gateway stores round-trips: a JSON payload parsed
back by json.loads is the structure json.dumps serialized, and the stored
CSV form — urlsafe base64 with the padding stripped — decodes back to
exactly the bytes that were encoded, in particular for the UTF-8 bytes of
any CSV text. -/
theorem c4_storage_roundtrip :
    (∀ j : Json, loads (dumps j) = some j) ∧
    (∀ bs : List Nat, (∀ b ∈ bs, b < 256) →
      b64decodeNoPad (pyStripEq (b64encode bs)) = some bs) ∧
    (∀ s : String, b64decodeNoPad (pyStripEq (b64encode (utf8Bytes s))) =
      some (utf8Bytes s)) :=
  ⟨loads_dumps, b64_roundtrip, fun s => b64_roundtrip _ (utf8Bytes_lt s)⟩

theorem c4_storage_roundtrip_witness :
    (∀ b ∈ [10, 77, 200, 255], b < 256) ∧
    b64decodeNoPad (pyStripEq (b64encode [10, 77, 200, 255])) = some [10, 77, 200, 255] ∧
    loads (dumps (Json.obj (JMems.cons "symbol" (Json.str "AAPL")
        (JMems.cons "price" (Json.num 217) JMems.nil)))) =
      some (Json.obj (JMems.cons "symbol" (Json.str "AAPL")
        (JMems.cons "price" (Json.num 217) JMems.nil))) :=
  ⟨by decide, c4_storage_roundtrip.2.1 [10, 77, 200, 255] (by decide),
   c4_storage_roundtrip.1 _⟩

/-- C5: a start or end string that does not parse in the fixed YYYY-MM-DD
pattern is rejected with the format error before any fetch or cache
lookup (the effect trace is empty); well-formed dates with end equal to
or before start are rejected with the range-order error, again with no
effects; and any request that performs an effect at all had both dates
parse with end strictly after start. -/
theorem c5_history_validation :
    (∀ (w : HistoryWorld) (sym start end_ : String),
      validate_date_format start = false ∨ validate_date_format end_ = false →
      history_stock_data w sym start end_ =
        (.ok (envFail (pyUpper sym) "Invalid date format. Please use yyyy-MM-dd."), [])) ∧
    (∀ (w : HistoryWorld) (sym start end_ : String) (ds de : Nat × Nat × Nat),
      parseDate start = some ds → parseDate end_ = some de → dateLe de ds = true →
      history_stock_data w sym start end_ =
        (.ok (envFail (pyUpper sym) "End date must be greater than start date."), [])) ∧
    (∀ (w : HistoryWorld) (sym start end_ : String) (e : Eff),
      e ∈ (history_stock_data w sym start end_).2 →
      ∃ ds de, parseDate start = some ds ∧ parseDate end_ = some de ∧
        dateLe de ds = false) := by
  refine ⟨?_, ?_, ?_⟩
  · intro w sym start end_ h
    have hcase : parseDate start = none ∨ parseDate end_ = none := by
      unfold validate_date_format at h
      rcases h with h | h
      · left
        cases hps : parseDate start
        · rfl
        · rw [hps] at h; simp at h
      · right
        cases hpe : parseDate end_
        · rfl
        · rw [hpe] at h; simp at h
    rcases hcase with hn | hn
    · cases hpe : parseDate end_ <;> simp only [history_stock_data, hn, hpe]
    · cases hps : parseDate start <;> simp only [history_stock_data, hn, hps]
  · intro w sym start end_ ds de hs he hle
    simp only [history_stock_data, hs, he, hle, if_pos]
  · intro w sym start end_ e hmem
    cases hs : parseDate start with
    | none =>
      cases he2 : parseDate end_ <;> simp [history_stock_data, hs, he2] at hmem
    | some ds =>
      cases he2 : parseDate end_ with
      | none => simp [history_stock_data, hs, he2] at hmem
      | some de =>
        refine ⟨ds, de, rfl, rfl, ?_⟩
        cases hle : dateLe de ds
        · rfl
        · simp [history_stock_data, hs, he2, hle] at hmem

theorem c5_history_validation_witness :
    ((validate_date_format "2024-13-01" = false ∨ validate_date_format "2024-06-01" = false) ∧
      history_stock_data c5World "ibm" "2024-13-01" "2024-06-01" =
        (.ok (envFail (pyUpper "ibm") "Invalid date format. Please use yyyy-MM-dd."), [])) ∧
    ((parseDate "2024-06-10" = some (2024, 6, 10) ∧ dateLe (2024, 6, 10) (2024, 6, 10) = true) ∧
      history_stock_data c5World "ibm" "2024-06-10" "2024-06-10" =
        (.ok (envFail (pyUpper "ibm") "End date must be greater than start date."), [])) ∧
    (Eff.fetch "yf_history_range" ∈ (history_stock_data c5World "ibm" "2024-06-01" "2024-06-10").2 ∧
      ∃ ds de, parseDate "2024-06-01" = some ds ∧ parseDate "2024-06-10" = some de ∧
        dateLe de ds = false) :=
  ⟨⟨Or.inl (by decide), c5_history_validation.1 c5World "ibm" "2024-13-01" "2024-06-01"
      (Or.inl (by decide))⟩,
   ⟨⟨by decide, by decide⟩, c5_history_validation.2.1 c5World "ibm" "2024-06-10" "2024-06-10"
      (2024, 6, 10) (2024, 6, 10) (by decide) (by decide) (by decide)⟩,
   ⟨by decide, c5_history_validation.2.2 c5World "ibm" "2024-06-01" "2024-06-10"
      (.fetch "yf_history_range") (by decide)⟩⟩

/-- C6: a period token outside the fixed set is rejected with a failure
envelope whose error echoes the allowed set, before any cache lookup or
upstream call (empty effect trace); every token inside the set passes the
validation, the handler continuing with its post-validation body. -/
theorem c6_period_validation :
    (∀ (w : PeriodsWorld) (sym p : String), p ∉ valid_periods →
      periods_stock_data w sym p =
        (.ok (envFail (pyUpper sym)
          "Invalid period. Must be one of: 1d, 5d, 1mo, 3mo, 6mo, 1y, 2y, 5y, 10y, ytd, max"),
         [])) ∧
    (∀ (w : PeriodsWorld) (sym p : String), p ∈ valid_periods →
      periods_stock_data w sym p = periodsAfterValidation w sym p) := by
  constructor
  · intro w sym p hp
    simp only [periods_stock_data, if_pos hp]
    rfl
  · intro w sym p hp
    simp only [periods_stock_data, if_neg (not_not_intro hp)]

theorem c6_period_validation_witness :
    ("2w" ∉ valid_periods ∧
      periods_stock_data c6World "msft" "2w" =
        (.ok (envFail (pyUpper "msft")
          "Invalid period. Must be one of: 1d, 5d, 1mo, 3mo, 6mo, 1y, 2y, 5y, 10y, ytd, max"),
         [])) ∧
    ("1mo" ∈ valid_periods ∧
      periods_stock_data c6World "msft" "1mo" = periodsAfterValidation c6World "msft" "1mo") :=
  ⟨⟨by decide, c6_period_validation.1 c6World "msft" "2w" (by decide)⟩,
   ⟨by decide, c6_period_validation.2 c6World "msft" "1mo" (by decide)⟩⟩

/-- C7: symbols are upper-cased before use: two symbol strings with the
same upper-casing yield identical cache keys on both key-building
endpoints and identical handler behaviour everywhere, each key embeds
the upper-cased symbol, upper-casing is idempotent (so a symbol and its
normalized form share one cache entry), and concretely aapl normalizes
to AAPL. -/
theorem c7_case_normalization :
    (∀ s t : String, pyUpper s = pyUpper t →
      tickerCacheKey s = tickerCacheKey t ∧
      (∀ p, periodsCacheKey s p = periodsCacheKey t p) ∧
      (∀ w : TickerWorld, get_stock_info w s = get_stock_info w t) ∧
      (∀ (w : PeriodsWorld) (p : String),
        periods_stock_data w s p = periods_stock_data w t p) ∧
      (∀ (w : HistoryWorld) (st en : String),
        history_stock_data w s st en = history_stock_data w t st en)) ∧
    (∀ s : String, tickerCacheKey s = "stock_ticker_info:" ++ pyUpper s ∧
      ∀ p, periodsCacheKey s p = "stock_periods:" ++ pyUpper s ++ ":" ++ p) ∧
    (∀ s : String, pyUpper (pyUpper s) = pyUpper s) ∧
    pyUpper "aapl" = "AAPL" := by
  refine ⟨?_, fun s => ⟨rfl, fun p => rfl⟩, ?_, by decide⟩
  · intro s t h
    refine ⟨?_, fun p => ?_, fun w => ?_, fun w p => ?_, fun w st en => ?_⟩
    · simp only [tickerCacheKey, h]
    · simp only [periodsCacheKey, h]
    · simp only [get_stock_info, h]
    · simp only [periods_stock_data, periodsAfterValidation, h]
    · simp only [history_stock_data, h]
  · intro s
    simp only [pyUpper, List.map_map]
    congr 1
    exact List.map_congr_left fun c _ => upperChar_idem c

theorem c7_case_normalization_witness :
    pyUpper "aapl" = pyUpper "AAPL" ∧
    tickerCacheKey "aapl" = tickerCacheKey "AAPL" ∧
    periodsCacheKey "aapl" "1d" = periodsCacheKey "AAPL" "1d" ∧
    get_stock_info someTickerWorld "aapl" = get_stock_info someTickerWorld "AAPL" :=
  have h : pyUpper "aapl" = pyUpper "AAPL" := by decide
  ⟨h, (c7_case_normalization.1 "aapl" "AAPL" h).1,
   (c7_case_normalization.1 "aapl" "AAPL" h).2.1 "1d",
   (c7_case_normalization.1 "aapl" "AAPL" h).2.2.1 someTickerWorld⟩

/-! ## C8: the TTL used by every cache write -/

/-- Every write the except-branch of get_stock_info performs uses the long
TTL. -/
theorem tickerExceptBranch_write_ttl (w : TickerWorld) (symbol key m k v : String)
    (ttl : Nat) (h : Eff.write k ttl v ∈ (tickerExceptBranch w symbol key m).2) :
    ttl = w.env.cacheExpirationLong := by
  unfold tickerExceptBranch at h
  split at h
  · simp at h
  · split at h
    · simp at h
    · split at h
      · split at h
        · simp at h
        · split at h
          · simp at h
          · split at h
            · simp at h
              exact h.2.1
            · simp at h
        · simp at h
      · simp at h

/-- Every write the fetch phase of get_stock_info adds to the inherited
trace uses the long TTL. -/
theorem tickerFetchPhase_write_ttl (w : TickerWorld) (symbol key : String)
    (effs0 : List Eff) (k v : String) (ttl : Nat)
    (h : Eff.write k ttl v ∈ (tickerFetchPhase w symbol key effs0).2)
    (h0 : Eff.write k ttl v ∉ effs0) :
    ttl = w.env.cacheExpirationLong := by
  simp only [tickerFetchPhase] at h
  split at h
  · exact absurd h h0
  · split at h
    · simp [List.mem_append] at h
      rcases h with h | h
      · exact absurd h h0
      · exact tickerExceptBranch_write_ttl w symbol key _ k v ttl h
    · split at h
      · simp [List.mem_append] at h
        exact absurd h h0
      · split at h
        · simp [List.mem_append] at h
          exact absurd h h0
        · split at h
          · simp [List.mem_append] at h
            rcases h with h | h
            · exact absurd h h0
            · exact h.2.1
          · simp [List.mem_append] at h
            rcases h with h | h
            · exact absurd h h0
            · exact tickerExceptBranch_write_ttl w symbol key _ k v ttl h

/-- Every write the fetch phase of periods_stock_data adds to the
inherited trace uses the default TTL. -/
theorem periodsFetchPhase_write_ttl (w : PeriodsWorld) (symbol p key : String)
    (effs0 : List Eff) (k v : String) (ttl : Nat)
    (h : Eff.write k ttl v ∈ (periodsFetchPhase w symbol p key effs0).2)
    (h0 : Eff.write k ttl v ∉ effs0) :
    ttl = w.env.cacheExpiration := by
  simp only [periodsFetchPhase] at h
  split at h
  · exact absurd h h0
  · split at h
    · simp [List.mem_append] at h
      exact absurd h h0
    · simp [List.mem_append] at h
      exact absurd h h0
    · split at h
      · simp [List.mem_append] at h
        exact absurd h h0
      · split at h
        · simp [List.mem_append] at h
          exact absurd h h0
        · split at h
          · simp [List.mem_append] at h
            exact absurd h h0
          · split at h
            · simp [List.mem_append] at h
              exact absurd h h0
            · split at h
              · simp [List.mem_append] at h
                rcases h with h | h
                · exact absurd h h0
                · exact h.2.1
              · simp [List.mem_append] at h
                exact absurd h h0

/-- C8: the TTL class is fixed per endpoint: every cache write of the
ticker-info handler uses the long TTL, every write of the fixed-period
handler uses the default TTL, every write of the symbol-list handler uses
the long TTL, and the history-range handler performs no cache effect at
all — its trace holds only fetches. -/
theorem c8_ttl_policy :
    (∀ (w : TickerWorld) (sym k v : String) (ttl : Nat),
      Eff.write k ttl v ∈ (get_stock_info w sym).2 → ttl = w.env.cacheExpirationLong) ∧
    (∀ (w : PeriodsWorld) (sym p k v : String) (ttl : Nat),
      Eff.write k ttl v ∈ (periods_stock_data w sym p).2 → ttl = w.env.cacheExpiration) ∧
    (∀ (w : AllTickersWorld) (k v : String) (ttl : Nat),
      Eff.write k ttl v ∈ (get_all_us_stock_tickers w).2 → ttl = w.env.cacheExpirationLong) ∧
    (∀ (w : HistoryWorld) (sym st en : String) (e : Eff),
      e ∈ (history_stock_data w sym st en).2 → ∃ s, e = Eff.fetch s) := by
  refine ⟨?_, ?_, ?_, ?_⟩
  · intro w sym k v ttl hmem
    simp only [get_stock_info] at hmem
    split at hmem
    · exact tickerFetchPhase_write_ttl w _ _ [] k v ttl hmem (by simp)
    · split at hmem
      · split at hmem
        · simp at hmem
        · simp at hmem
      · exact tickerFetchPhase_write_ttl w _ _ _ k v ttl hmem (by simp)
  · intro w sym p k v ttl hmem
    simp only [periods_stock_data] at hmem
    split at hmem
    · simp at hmem
    · simp only [periodsAfterValidation] at hmem
      split at hmem
      · exact periodsFetchPhase_write_ttl w _ _ _ [] k v ttl hmem (by simp)
      · split at hmem
        · simp at hmem
        · exact periodsFetchPhase_write_ttl w _ _ _ _ k v ttl hmem (by simp)
  · intro w k v ttl hmem
    simp only [get_all_us_stock_tickers] at hmem
    split at hmem
    · simp at hmem
    · split at hmem
      · split at hmem
        · simp at hmem
        · simp at hmem
      · split at hmem
        · simp at hmem
        · split at hmem
          · simp at hmem
            exact hmem.2.1
          · simp at hmem
  · intro w sym st en e hmem
    cases hs : parseDate st with
    | none =>
      cases he2 : parseDate en <;> simp [history_stock_data, hs, he2] at hmem
    | some ds =>
      cases he2 : parseDate en with
      | none => simp [history_stock_data, hs, he2] at hmem
      | some de =>
        simp only [history_stock_data, hs, he2] at hmem
        split at hmem
        · simp at hmem
        · split at hmem
          · simp at hmem
          · split at hmem <;> simp at hmem <;> exact ⟨_, hmem⟩

theorem c8_ttl_policy_witness :
    (Eff.write "stock_ticker_info:A" 82800
        (dumps (Json.obj (JMems.cons "symbol" (Json.str "A") JMems.nil)))
        ∈ (get_stock_info c8TickerWorld "a").2 ∧
      (82800 : Nat) = c8TickerWorld.env.cacheExpirationLong) ∧
    (Eff.write "stock_periods:A:1mo" 3600
        (String.mk (pyStripEq (b64encode (utf8Bytes (Df.toCsv c8Df)))))
        ∈ (periods_stock_data c8PeriodsWorld "a" "1mo").2 ∧
      (3600 : Nat) = c8PeriodsWorld.env.cacheExpiration) ∧
    (Eff.write "all_stock_tickers" 82800
        (dumps (Json.arr (jarrOfStrings ["AAA", "BBB"])))
        ∈ (get_all_us_stock_tickers c8AllWorld).2 ∧
      (82800 : Nat) = c8AllWorld.env.cacheExpirationLong) ∧
    (Eff.fetch "yf_history_range"
        ∈ (history_stock_data c8HistoryWorld "a" "2024-06-01" "2024-06-10").2 ∧
      ∃ s, Eff.fetch "yf_history_range" = Eff.fetch s) :=
  have h1 : Eff.write "stock_ticker_info:A" 82800
      (dumps (Json.obj (JMems.cons "symbol" (Json.str "A") JMems.nil)))
      ∈ (get_stock_info c8TickerWorld "a").2 := by decide
  have h2 : Eff.write "stock_periods:A:1mo" 3600
      (String.mk (pyStripEq (b64encode (utf8Bytes (Df.toCsv c8Df)))))
      ∈ (periods_stock_data c8PeriodsWorld "a" "1mo").2 := by decide
  have h3 : Eff.write "all_stock_tickers" 82800
      (dumps (Json.arr (jarrOfStrings ["AAA", "BBB"])))
      ∈ (get_all_us_stock_tickers c8AllWorld).2 := by decide
  have h4 : Eff.fetch "yf_history_range"
      ∈ (history_stock_data c8HistoryWorld "a" "2024-06-01" "2024-06-10").2 := by decide
  ⟨⟨h1, c8_ttl_policy.1 c8TickerWorld "a" _ _ 82800 h1⟩,
   ⟨h2, c8_ttl_policy.2.1 c8PeriodsWorld "a" "1mo" _ _ 3600 h2⟩,
   ⟨h3, c8_ttl_policy.2.2.1 c8AllWorld _ _ 82800 h3⟩,
   ⟨h4, c8_ttl_policy.2.2.2 c8HistoryWorld "a" "2024-06-01" "2024-06-10" _ h4⟩⟩

/-! ## C9: the ten-row threshold of the fixed-period endpoint -/

/-- With both session fragments configured, proxy selection always
succeeds. -/
theorem selectProxy_ok (env : Env) (tok a b : String)
    (ha : env.sessionA = some a) (hb : env.sessionB = some b) :
    ∃ o, selectProxyLines env tok = .ok o := by
  simp only [selectProxyLines, ha, hb]
  cases env.sessionProxy <;> simp

/-- C9: a successful, non-empty download of fewer than ten rows yields the
row-threshold failure envelope and writes nothing to the cache; dually,
every freshly-fetched success envelope and every cache write has at least
ten downloaded rows behind it. -/
theorem c9_row_threshold :
    (∀ (w : PeriodsWorld) (sym p : String) (df : Df),
      p ∈ valid_periods → w.env.isLocalEnv = false →
      truthyLookup w.cache (periodsCacheKey sym p) = none →
      (∃ a, w.env.sessionA = some a) → (∃ b, w.env.sessionB = some b) →
      w.probe = .ok → w.download = .ok df →
      df.rows.isEmpty = false → df.rows.length < 10 →
      (periods_stock_data w sym p).1 =
        .ok (envFail (pyUpper sym) "Data rows are less than 10 rows.") ∧
      ∀ (k v : String) (ttl : Nat), Eff.write k ttl v ∉ (periods_stock_data w sym p).2) ∧
    (∀ (w : PeriodsWorld) (sym p : String) (df : Df) (e : Envelope),
      w.download = .ok df →
      (periods_stock_data w sym p).1 = .ok e →
      e.status = true → e.cache = none →
      10 ≤ df.rows.length) ∧
    (∀ (w : PeriodsWorld) (sym p k v : String) (ttl : Nat) (df : Df),
      w.download = .ok df →
      Eff.write k ttl v ∈ (periods_stock_data w sym p).2 →
      10 ≤ df.rows.length) := by
  refine ⟨?_, ?_, ?_⟩
  · intro w sym p df hp hlocal hmiss ha hb hprobe hdl hne hlt
    obtain ⟨a, ha⟩ := ha
    obtain ⟨b, hb⟩ := hb
    obtain ⟨o, ho⟩ := selectProxy_ok w.env (generate_random_string w.draws 8) a b ha hb
    simp only [periodsCacheKey] at hmiss
    refine ⟨?_, ?_⟩
    · simp only [periods_stock_data, if_neg (not_not_intro hp), periodsAfterValidation,
        hlocal, Bool.false_eq_true, if_neg (Bool.false_ne_true), hmiss, periodsFetchPhase,
        ho, hprobe, hdl, hne, if_pos hlt]
      simp
    · intro k v ttl
      simp only [periods_stock_data, if_neg (not_not_intro hp), periodsAfterValidation,
        hlocal, Bool.false_eq_true, if_neg (Bool.false_ne_true), hmiss, periodsFetchPhase,
        ho, hprobe, hdl, hne, if_pos hlt]
      simp
  · intro w sym p df e hdl hres hstat hcache
    by_cases hlt : df.rows.length < 10
    · exfalso
      simp only [periods_stock_data, periodsAfterValidation, periodsFetchPhase, hdl] at hres
      repeat' split at hres
      all_goals first
        | omega
        | (simp at hres; done)
        | (simp at hres; rw [← hres] at hstat; simp [envFail] at hstat; done)
        | (simp at hres; rw [← hres] at hcache; simp [envFail] at hcache; done)
    · omega
  · intro w sym p k v ttl df hdl hmem
    by_cases hlt : df.rows.length < 10
    · exfalso
      simp only [periods_stock_data, periodsAfterValidation, periodsFetchPhase, hdl] at hmem
      repeat' split at hmem
      all_goals first
        | omega
        | (simp at hmem; done)
    · omega

theorem c9_row_threshold_witness :
    (c9Df.rows.length < 10 ∧
      (periods_stock_data c9World "a" "1mo").1 =
        .ok (envFail (pyUpper "a") "Data rows are less than 10 rows.") ∧
      ∀ (k v : String) (ttl : Nat),
        Eff.write k ttl v ∉ (periods_stock_data c9World "a" "1mo").2) ∧
    ((periods_stock_data c9World2 "a" "1mo").1 =
        .ok { status := true, symbol := some "A",
              result := some (.str (String.mk (pyStripEq (b64encode
                (utf8Bytes (Df.toCsv c9Df10)))))),
              error := none, cache := none } ∧
      10 ≤ c9Df10.rows.length) ∧
    (Eff.write "stock_periods:A:1mo" 3600
        (String.mk (pyStripEq (b64encode (utf8Bytes (Df.toCsv c9Df10)))))
        ∈ (periods_stock_data c9World2 "a" "1mo").2 ∧
      10 ≤ c9Df10.rows.length) :=
  have hres : (periods_stock_data c9World2 "a" "1mo").1 =
      .ok { status := true, symbol := some "A",
            result := some (.str (String.mk (pyStripEq (b64encode
              (utf8Bytes (Df.toCsv c9Df10)))))),
            error := none, cache := none } := by rfl
  have hmem : Eff.write "stock_periods:A:1mo" 3600
      (String.mk (pyStripEq (b64encode (utf8Bytes (Df.toCsv c9Df10)))))
      ∈ (periods_stock_data c9World2 "a" "1mo").2 := by decide
  have hfirst := c9_row_threshold.1 c9World "a" "1mo" c9Df (by decide) (by decide)
    (by decide) ⟨"http://user-", rfl⟩ ⟨":pw@gate.io", rfl⟩ rfl rfl (by decide) (by decide)
  ⟨⟨by decide, hfirst.1, hfirst.2⟩,
   ⟨hres, c9_row_threshold.2.1 c9World2 "a" "1mo" c9Df10 _ rfl hres rfl rfl⟩,
   ⟨hmem, c9_row_threshold.2.2 c9World2 "a" "1mo" _ _ 3600 c9Df10 rfl hmem⟩⟩

/-- C10: on a validated, cache-missing request the probe's two failure
modes each return a failure envelope while the trace stops at the probe —
the period download is never attempted — and conversely any download
effect in a trace means the probe succeeded. -/
theorem c10_probe_gate :
    (∀ (w : PeriodsWorld) (sym p m : String),
      p ∈ valid_periods → w.env.isLocalEnv = false →
      truthyLookup w.cache (periodsCacheKey sym p) = none →
      (∃ a, w.env.sessionA = some a) → (∃ b, w.env.sessionB = some b) →
      (w.probe = .pricesMissing m →
        periods_stock_data w sym p =
          (.ok (envFail (pyUpper sym) ("YFPricesMissingError: " ++ m)),
           [.read (periodsCacheKey sym p), .fetch "yf_history_1wk_probe"])) ∧
      (w.probe = .other m →
        periods_stock_data w sym p =
          (.ok (envFail (pyUpper sym) ("request failed: " ++ m)),
           [.read (periodsCacheKey sym p), .fetch "yf_history_1wk_probe"]))) ∧
    (∀ (w : PeriodsWorld) (sym p : String) (e : Eff),
      e ∈ (periods_stock_data w sym p).2 → isDownloadEff e = true →
      w.probe = ProbeResult.ok) := by
  constructor
  · intro w sym p m hp hlocal hmiss ha hb
    obtain ⟨a, ha⟩ := ha
    obtain ⟨b, hb⟩ := hb
    obtain ⟨o, ho⟩ := selectProxy_ok w.env (generate_random_string w.draws 8) a b ha hb
    simp only [periodsCacheKey] at hmiss ⊢
    constructor
    · intro hprobe
      simp only [periods_stock_data, if_neg (not_not_intro hp), periodsAfterValidation,
        hlocal, Bool.false_eq_true, if_neg (Bool.false_ne_true), hmiss, periodsFetchPhase,
        ho, hprobe]
      simp
    · intro hprobe
      simp only [periods_stock_data, if_neg (not_not_intro hp), periodsAfterValidation,
        hlocal, Bool.false_eq_true, if_neg (Bool.false_ne_true), hmiss, periodsFetchPhase,
        ho, hprobe]
      simp
  · intro w sym p e hmem hde
    cases e with
    | read k => simp [isDownloadEff] at hde
    | write k ttl v => simp [isDownloadEff] at hde
    | fetch s =>
      cases hpr : w.probe with
      | ok => rfl
      | pricesMissing m =>
        exfalso
        simp only [periods_stock_data, periodsAfterValidation, periodsFetchPhase,
          hpr] at hmem
        repeat' split at hmem
        all_goals first
          | (simp at hmem; done)
          | (simp at hmem; subst hmem; exact absurd hde (by decide))
      | other m =>
        exfalso
        simp only [periods_stock_data, periodsAfterValidation, periodsFetchPhase,
          hpr] at hmem
        repeat' split at hmem
        all_goals first
          | (simp at hmem; done)
          | (simp at hmem; subst hmem; exact absurd hde (by decide))

theorem c10_probe_gate_witness :
    (c10World.probe = ProbeResult.pricesMissing "no price data" ∧
      periods_stock_data c10World "a" "1mo" =
        (.ok (envFail (pyUpper "a") ("YFPricesMissingError: " ++ "no price data")),
         [.read (periodsCacheKey "a" "1mo"), .fetch "yf_history_1wk_probe"])) ∧
    (c10World2.probe = ProbeResult.other "boom" ∧
      periods_stock_data c10World2 "a" "1mo" =
        (.ok (envFail (pyUpper "a") ("request failed: " ++ "boom")),
         [.read (periodsCacheKey "a" "1mo"), .fetch "yf_history_1wk_probe"])) ∧
    (Eff.fetch "yf_download_1mo_1d" ∈ (periods_stock_data c10World3 "a" "1mo").2 ∧
      isDownloadEff (Eff.fetch "yf_download_1mo_1d") = true ∧
      c10World3.probe = ProbeResult.ok) :=
  have hm : Eff.fetch "yf_download_1mo_1d" ∈ (periods_stock_data c10World3 "a" "1mo").2 :=
    by decide
  ⟨⟨rfl, (c10_probe_gate.1 c10World "a" "1mo" "no price data" (by decide) (by decide)
      (by decide) ⟨"http://user-", rfl⟩ ⟨":pw@gate.io", rfl⟩).1 rfl⟩,
   ⟨rfl, (c10_probe_gate.1 c10World2 "a" "1mo" "boom" (by decide) (by decide)
      (by decide) ⟨"http://user-", rfl⟩ ⟨":pw@gate.io", rfl⟩).2 rfl⟩,
   ⟨hm, by decide,
    c10_probe_gate.2 c10World3 "a" "1mo" (Eff.fetch "yf_download_1mo_1d") hm (by decide)⟩⟩

/-- C1: on the fallback path the first call returns the extracted
summaryProfile but writes the whole RapidAPI body to the cache (line 196
of src/main.py dumps `result`, not `profile_data`), so the second call —
reading back that very value — returns the whole body under the hit tag:
the two `result` payloads differ, refuting the round-trip the claim
states for this success path. -/
theorem c1_fallback_cache_divergence :
    (get_stock_info c1World "msft").1 =
      .ok { status := true, symbol := some "MSFT", result := some c1Profile,
            error := none, cache := none } ∧
    Eff.write "stock_ticker_info:MSFT" c1World.env.cacheExpirationLong (dumps c1Body)
      ∈ (get_stock_info c1World "msft").2 ∧
    c1World2.cache "stock_ticker_info:MSFT" = some (dumps c1Body) ∧
    (get_stock_info c1World2 "msft").1 =
      .ok { status := true, symbol := some "MSFT", result := some c1Body,
            error := none, cache := some "hit" } ∧
    c1Body ≠ c1Profile :=
  ⟨rfl, by decide, rfl, by rfl, by decide⟩

/-- C2 counterexample: a fixed-period request whose external fetch succeeds
with ten rows but whose cache-store write fails returns a failure
envelope, not the freshly fetched value — the setex sits inside the fetch
try-block (line 343 of src/main.py), so its exception is caught at line
350 as a failed request. -/
theorem c2_store_failure_counterexample :
    c2World.download = .ok c2Df ∧
    10 ≤ c2Df.rows.length ∧
    c2World.setexOk = false ∧
    (periods_stock_data c2World "msft" "1mo").1 =
      .ok (envFail "MSFT" "API request failed: redis down") ∧
    (envFail "MSFT" "API request failed: redis down").status = false :=
  ⟨rfl, by decide, rfl, by rfl, rfl⟩

/-- C2 amended: a cache-store write failure after a successful fetch fails
the request: the fixed-period endpoint returns the failure envelope
carrying the setex error, and the ticker endpoint falls into its
except-branch — which, without a RapidAPI key, likewise returns a failure
envelope carrying the setex error. -/
theorem c2_store_failure_amended :
    (∀ (w : PeriodsWorld) (sym p : String) (df : Df),
      p ∈ valid_periods → w.env.isLocalEnv = false →
      truthyLookup w.cache (periodsCacheKey sym p) = none →
      (∃ a, w.env.sessionA = some a) → (∃ b, w.env.sessionB = some b) →
      w.probe = .ok → w.download = .ok df →
      df.rows.isEmpty = false → ¬ df.rows.length < 10 →
      w.setexOk = false →
      (periods_stock_data w sym p).1 =
        .ok (envFail (pyUpper sym) ("API request failed: " ++ w.setexErrMsg))) ∧
    (∀ (w : TickerWorld) (sym : String) (info : JMems),
      w.env.isLocalEnv = false →
      truthyLookup w.cache (tickerCacheKey sym) = none →
      (∃ a, w.env.sessionA = some a) → (∃ b, w.env.sessionB = some b) →
      w.infoResult = .ok info →
      ¬ (jmemsLen info = 0 ∨ ¬ jmemsHasKey "symbol" info = true) →
      w.setexOk = false →
      (get_stock_info w sym).1 =
        (tickerExceptBranch w (pyUpper sym) (tickerCacheKey sym) w.setexErrMsg).1) ∧
    (∀ (w : TickerWorld) (sym : String) (info : JMems),
      w.env.isLocalEnv = false →
      truthyLookup w.cache (tickerCacheKey sym) = none →
      (∃ a, w.env.sessionA = some a) → (∃ b, w.env.sessionB = some b) →
      w.infoResult = .ok info →
      ¬ (jmemsLen info = 0 ∨ ¬ jmemsHasKey "symbol" info = true) →
      w.setexOk = false →
      w.env.rapidApiKey = none →
      (get_stock_info w sym).1 =
        .ok (envFail (pyUpper sym) ("API request failed: " ++ w.setexErrMsg))) := by
  refine ⟨?_, ?_, ?_⟩
  · intro w sym p df hp hlocal hmiss ⟨a, ha⟩ ⟨b, hb⟩ hprobe hdl hne hge hsx
    obtain ⟨o, ho⟩ := selectProxy_ok w.env (generate_random_string w.draws 8) a b ha hb
    simp only [periodsCacheKey] at hmiss
    simp only [periods_stock_data, if_neg (not_not_intro hp), periodsAfterValidation,
      hlocal, Bool.false_eq_true, if_neg (Bool.false_ne_true), hmiss, periodsFetchPhase,
      ho, hprobe, hdl, hne, if_neg hge, hsx]
    simp
  · intro w sym info hlocal hmiss ⟨a, ha⟩ ⟨b, hb⟩ hinfo hguard hsx
    obtain ⟨o, ho⟩ := selectProxy_ok w.env (generate_random_string w.draws 8) a b ha hb
    simp only [tickerCacheKey] at hmiss ⊢
    simp only [get_stock_info, hlocal, Bool.false_eq_true, if_neg (Bool.false_ne_true),
      hmiss, tickerFetchPhase, ho, hinfo, if_neg hguard, hsx]
    simp
  · intro w sym info hlocal hmiss ⟨a, ha⟩ ⟨b, hb⟩ hinfo hguard hsx hkey
    obtain ⟨o, ho⟩ := selectProxy_ok w.env (generate_random_string w.draws 8) a b ha hb
    simp only [tickerCacheKey] at hmiss
    simp only [get_stock_info, hlocal, Bool.false_eq_true, if_neg (Bool.false_ne_true),
      hmiss, tickerFetchPhase, ho, hinfo, if_neg hguard, hsx, tickerExceptBranch, hkey]
    simp

theorem c2_store_failure_amended_witness :
    (c2World.setexOk = false ∧
      (periods_stock_data c2World "msft" "1mo").1 =
        .ok (envFail (pyUpper "msft") ("API request failed: " ++ c2World.setexErrMsg))) ∧
    (c2TickerWorld.setexOk = false ∧
      (get_stock_info c2TickerWorld "msft").1 =
        (tickerExceptBranch c2TickerWorld (pyUpper "msft") (tickerCacheKey "msft")
          c2TickerWorld.setexErrMsg).1) ∧
    (c2TickerWorld.env.rapidApiKey = none ∧
      (get_stock_info c2TickerWorld "msft").1 =
        .ok (envFail (pyUpper "msft") ("API request failed: " ++ c2TickerWorld.setexErrMsg))) :=
  ⟨⟨rfl, c2_store_failure_amended.1 c2World "msft" "1mo" c2Df (by decide) (by decide)
      (by decide) ⟨"http://user-", rfl⟩ ⟨":pw@gate.io", rfl⟩ rfl rfl (by decide)
      (by decide) rfl⟩,
   ⟨rfl, c2_store_failure_amended.2.1 c2TickerWorld "msft"
      (JMems.cons "symbol" (.str "A") JMems.nil) (by decide) (by decide)
      ⟨"http://user-", rfl⟩ ⟨":pw@gate.io", rfl⟩ rfl (by decide) rfl⟩,
   ⟨rfl, c2_store_failure_amended.2.2 c2TickerWorld "msft"
      (JMems.cons "symbol" (.str "A") JMems.nil) (by decide) (by decide)
      ⟨"http://user-", rfl⟩ ⟨":pw@gate.io", rfl⟩ rfl (by decide) rfl rfl⟩⟩

/-- C3: the concatenation SESSION_A + random_string + SESSION_B runs
before the mode test (lines 151-156 of src/main.py), so with either
fragment absent — the default configuration — proxy selection raises a
TypeError even in static mode, and the ticker request errors instead of
proceeding proxy-less as the claim states; with both fragments present
the selection does behave as claimed: session mode yields
prefix ++ token ++ suffix, static mode the configured address (absence
meaning none), and the generated token has the requested length (the
handlers request 8) and consists of digits. -/
theorem c3_proxy_selection :
    (∀ (env : Env) (tok : String), env.sessionA = none ∨ env.sessionB = none →
      selectProxyLines env tok = .error .typeError) ∧
    selectProxyLines defaultEnv (generate_random_string (fun _ => 3) 8) =
      .error .typeError ∧
    (get_stock_info c3World "aapl").1 = .error .typeError ∧
    (∀ (env : Env) (a b tok : String),
      env.sessionA = some a → env.sessionB = some b →
      selectProxyLines env tok =
        .ok (if env.sessionProxy then some (a ++ tok ++ b) else env.httpProxy)) ∧
    (∀ (draws : Nat → Fin 10) (n : Nat), (generate_random_string draws n).length = n) ∧
    (∀ (draws : Nat → Fin 10) (n : Nat) (c : Char),
      c ∈ (generate_random_string draws n).data → c.isDigit = true) := by
  refine ⟨?_, by rfl, by rfl, ?_, ?_, ?_⟩
  · intro env tok h
    rcases h with h | h
    · simp only [selectProxyLines, h]
    · simp only [selectProxyLines, h]
      cases env.sessionA <;> rfl
  · intro env a b tok ha hb
    cases hsp : env.sessionProxy <;> simp [selectProxyLines, ha, hb, hsp]
  · intro draws n
    simp [generate_random_string, String.length]
  · intro draws n c hc
    simp only [generate_random_string, List.mem_map] at hc
    obtain ⟨i, _, hi⟩ := hc
    rw [← hi]
    have hlt : (draws i).val < 10 := (draws i).isLt
    interval_cases h : (draws i).val <;> decide

theorem c3_proxy_selection_witness :
    (defaultEnv.sessionA = none ∨ defaultEnv.sessionB = none) ∧
    selectProxyLines defaultEnv "33333333" = .error .typeError ∧
    (fragmentsEnv.sessionA = some "http://user-" ∧
      fragmentsEnv.sessionB = some ":pw@gate.io" ∧
      selectProxyLines fragmentsEnv "33333333" =
        .ok (if fragmentsEnv.sessionProxy then
          some ("http://user-" ++ "33333333" ++ ":pw@gate.io")
        else fragmentsEnv.httpProxy)) ∧
    (generate_random_string (fun _ => 3) 8).length = 8 ∧
    ('3' ∈ (generate_random_string (fun _ => 3) 8).data ∧ '3'.isDigit = true) :=
  ⟨Or.inl rfl,
   c3_proxy_selection.1 defaultEnv "33333333" (Or.inl rfl),
   ⟨rfl, rfl, c3_proxy_selection.2.2.2.1 fragmentsEnv "http://user-" ":pw@gate.io"
      "33333333" rfl rfl⟩,
   c3_proxy_selection.2.2.2.2.1 (fun _ => 3) 8,
   ⟨by decide, c3_proxy_selection.2.2.2.2.2 (fun _ => 3) 8 '3' (by decide)⟩⟩
